import Mathlib

/-!
Verification of the real-time BPM / beat-intensity estimator of the
`aquarius` repository (`src/utils/audioUtils.ts`, class `AudioUtils`).

The estimator is shallowly embedded: JavaScript numbers are modelled as
exact rationals (`ℚ`), BPM values — which the source always produces via
`Math.round` — as integers (`ℤ`), and the mutable static
`bpmDetectionState` object as an explicit `BPMState` record threaded
through every function.  JavaScript `Map`s are modelled as
insertion-ordered association lists, matching the iteration order the
source relies on, and `Array.prototype.sort` (stable per the ECMAScript
specification) is modelled by a stable insertion sort.

`Math.round x` is Mathlib's `round` (both are `⌊x + 1/2⌋`).  The one
place the source can divide by zero on a reachable path —
`(flux - threshold) / (threshold * 0.8)` with `threshold = 0`, where
JavaScript produces `Infinity` and `Math.min (Infinity) 1 = 1` — is
modelled by an explicit zero test returning `1`.
-/

namespace Aquarius

/-- Stable insertion into a list: `x` is placed before the first element
`y` that does not strictly precede it (`lt y x = false`).  Together with
`stableSort` this models JavaScript's stable `Array.prototype.sort`
with comparator `c`, where `lt a b` means `c a b < 0`. -/
def stableInsert (lt : α → α → Bool) (x : α) : List α → List α
  | [] => [x]
  | y :: ys => if lt y x then y :: stableInsert lt x ys else x :: y :: ys

/-- Stable insertion sort, modelling `Array.prototype.sort`. -/
def stableSort (lt : α → α → Bool) : List α → List α
  | [] => []
  | x :: xs => stableInsert lt x (stableSort lt xs)

/-- `Map.prototype.get` with a default (`map.get(k) || d`). -/
def mapGetD (m : List (ℚ × ℚ)) (k : ℚ) (d : ℚ) : ℚ :=
  match m.find? (fun p => decide (p.1 = k)) with
  | some p => p.2
  | none => d

/-- `Map.prototype.set`: updating an existing key keeps its position,
a new key is appended at the end (JavaScript insertion order). -/
def mapSet (m : List (ℚ × ℚ)) (k v : ℚ) : List (ℚ × ℚ) :=
  if m.any (fun p => decide (p.1 = k)) then
    m.map (fun p => if p.1 = k then (k, v) else p)
  else m ++ [(k, v)]

/-- First-occurrence deduplication, modelling `[...new Set(xs)]`. -/
def jsDedupAux (seen : List ℤ) : List ℤ → List ℤ
  | [] => []
  | x :: xs =>
    if x ∈ seen then jsDedupAux seen xs else x :: jsDedupAux (x :: seen) xs

/-- `[...new Set(xs)]`: keeps the first occurrence of each element. -/
def jsDedup (l : List ℤ) : List ℤ := jsDedupAux [] l

/-- The `bpmDetectionState` record of `AudioUtils`.  The source fields
`autocorrelationHistory` and `confidenceHistory` are written only by the
initializer and by `resetBPMDetection` and are never read or updated, so
they are omitted from the embedding. -/
structure BPMState where
  onsetHistory : List ℚ
  lastOnsetTime : ℚ
  bpmHistory : List ℤ
  lastBeatTime : ℚ
  spectralFluxHistory : List ℚ
  previousSpectrum : Option (List ℚ)
  ioiHistogram : List (ℚ × ℚ)
  deriving Repr, DecidableEq

/-- The initial value of `AudioUtils.bpmDetectionState`. -/
def initState : BPMState :=
  { onsetHistory := []
    lastOnsetTime := 0
    bpmHistory := []
    lastBeatTime := 0
    spectralFluxHistory := []
    previousSpectrum := none
    ioiHistogram := [] }

/-- `AudioUtils.resetBPMDetection`: replaces the state with a fresh
object literal (the same literal as the initializer). -/
def resetBPMDetection : BPMState :=
  { onsetHistory := []
    lastOnsetTime := 0
    bpmHistory := []
    lastBeatTime := 0
    spectralFluxHistory := []
    previousSpectrum := none
    ioiHistogram := [] }

/-- The spectrum normalization performed at the top of
`AudioUtils.detectBPM`: `spectrum[i] = (frequencyData[i] / 255) *
emphasis`, where the first `⌊n/3⌋` bins get emphasis
`1 + min (lowFrequencyAverage * 2) 1` and the rest get `1`. -/
def normalizeSpectrum (frequencyData : List ℚ) (lowFrequencyAverage : ℚ) :
    List ℚ :=
  let lowFreqEmphasis := min (lowFrequencyAverage * 2) 1
  let lowFreqEnd := frequencyData.length / 3
  frequencyData.enum.map (fun p =>
    let emphasis : ℚ := if p.1 < lowFreqEnd then 1 + lowFreqEmphasis else 1
    p.2 / 255 * emphasis)

/-- The per-bin frequency weighting of `detectOnsets`: moderate weight
below 10% of the bin range, highest on 10–50%, high on 50–80%, lowest on
the top 20%. -/
def fluxWeight (i n : ℕ) : ℚ :=
  let normalizedBin : ℚ := (i : ℚ) / (n : ℚ)
  if normalizedBin < 1/10 then 4/5
  else if normalizedBin < 1/2 then 6/5
  else if normalizedBin < 4/5 then 1
  else 3/5

/-- Weighted spectral flux of `detectOnsets`: the sum of weighted
positive per-bin differences against the previous frame, divided by the
total weight.  A bin with no counterpart in the previous frame
contributes nothing to the flux (in JavaScript its difference is `NaN`,
which fails the `diff > 0` test) but its weight still accumulates. -/
def spectralFlux (spectrum prev : List ℚ) : ℚ :=
  let n := spectrum.length
  let acc := spectrum.enum.foldl
    (fun (a : ℚ × ℚ) p =>
      let w := fluxWeight p.1 n
      let contrib : ℚ :=
        match prev.get? p.1 with
        | some pv => if p.2 - pv > 0 then (p.2 - pv) * w else 0
        | none => 0
      (a.1 + contrib, a.2 + w))
    (0, 0)
  acc.1 / acc.2

/-- The flux median of `detectOnsets`: the element at index
`⌊length / 2⌋` of the ascending stable sort of the flux history (the
source's `sortedFlux[Math.floor(sortedFlux.length / 2)]`). -/
def fluxMedian (fluxHist : List ℚ) : ℚ :=
  (stableSort (fun a b => decide (a < b)) fluxHist).getD (fluxHist.length / 2) 0

/-- The adaptive threshold of `detectOnsets`: the flux median times a
factor `1.8 - 0.6 * min (variance * 100) 1`, where the variance is taken
around the median. -/
def adaptiveThreshold (fluxHist : List ℚ) : ℚ :=
  let median := fluxMedian fluxHist
  let variance :=
    (fluxHist.foldl (fun a f => a + (f - median) ^ 2) 0) / (fluxHist.length : ℚ)
  let varianceNormalized := min (variance * 100) 1
  median * (9/5 - varianceNormalized * (3/5))

/-- The dynamic minimum time between onsets of `detectOnsets`: 100 ms by
default, `clamp (60000 / (lastBpm * 2.5)) 60 150` when a BPM history
exists. -/
def minOnsetSpacing (bpmHistory : List ℤ) : ℚ :=
  match bpmHistory.getLast? with
  | some recentBPM => max 60 (min 150 (60000 / ((recentBPM : ℚ) * (5/2))))
  | none => 100

/-- The onset strength of `detectOnsets`:
`min ((flux - threshold) / (threshold * 0.8)) 1`.  For `threshold = 0`
(and `flux > threshold`) JavaScript yields `Infinity` and the `min`
gives `1`, modelled by the explicit zero test. -/
def onsetStrengthOf (flux threshold : ℚ) : ℚ :=
  if threshold = 0 then 1
  else min ((flux - threshold) / (threshold * (4/5))) 1

/-- Result of `AudioUtils.detectOnsets`: the onset strength (0 when no
onset fired) and the mutated state. -/
structure OnsetResult where
  onsetStrength : ℚ
  state : BPMState
  deriving Repr, DecidableEq

/-- `AudioUtils.detectOnsets`.  On the first call (no previous spectrum)
it only stores the frame.  Otherwise it computes the weighted flux,
appends it to the bounded flux history, derives the adaptive threshold
from the median and variance of that history, and fires an onset when
the flux exceeds the threshold and the minimum spacing has elapsed.  The
onset history is pruned (entries older than 15000 ms dropped) only
inside the onset branch. -/
def detectOnsets (spectrum : List ℚ) (currentTime : ℚ) (state : BPMState) :
    OnsetResult :=
  match state.previousSpectrum with
  | none => ⟨0, { state with previousSpectrum := some spectrum }⟩
  | some prev =>
    let flux := spectralFlux spectrum prev
    let fluxHist0 := state.spectralFluxHistory ++ [flux]
    let fluxHist := if 100 < fluxHist0.length then fluxHist0.drop 1 else fluxHist0
    let threshold := adaptiveThreshold fluxHist
    if flux > threshold ∧
        currentTime - state.lastOnsetTime > minOnsetSpacing state.bpmHistory then
      let newHistory :=
        (state.onsetHistory ++ [currentTime]).filter
          (fun t => decide (currentTime - t < 15000))
      ⟨onsetStrengthOf flux threshold,
        { state with
          spectralFluxHistory := fluxHist
          previousSpectrum := some spectrum
          onsetHistory := newHistory
          lastOnsetTime := currentTime }⟩
    else
      ⟨0, { state with
            spectralFluxHistory := fluxHist
            previousSpectrum := some spectrum }⟩

/-- `AudioUtils.updateIOIHistogram`.  With at least two stored onsets:
for every onset before the latest one, the interval to the latest onset,
when inside `[300, 2000]` ms, increments the weight of its nearest 10 ms
bucket by 1; afterwards every bucket weight is multiplied by `0.95` and
buckets falling below `0.1` are deleted.  With fewer than two onsets the
histogram is untouched (the decay included).  The source's
`currentTime` parameter is unused (the latest onset time is read from
the history), so it is not part of the embedding. -/
def updateIOIHistogram (state : BPMState) : BPMState :=
  if 2 ≤ state.onsetHistory.length then
    let latestOnsetTime := state.onsetHistory.getLastD 0
    let hist1 := state.onsetHistory.dropLast.foldl
      (fun m t =>
        let interval := latestOnsetTime - t
        if 300 ≤ interval ∧ interval ≤ 2000 then
          let roundedInterval : ℚ := ((round (interval / 10) : ℤ) : ℚ) * 10
          mapSet m roundedInterval (mapGetD m roundedInterval 0 + 1)
        else m)
      state.ioiHistogram
    let hist2 := hist1.filterMap (fun p =>
      let newCount := p.2 * (19/20)
      if newCount < 1/10 then none else some (p.1, newCount))
    { state with ioiHistogram := hist2 }
  else state

/-- `AudioUtils.analyzeIOIHistogram`: the top five histogram buckets by
weight (stable-sorted descending), those of weight above 1 converted to
BPM together with their ×2, ÷2, ×3/2 and ×4/3 harmonics (each rounded),
deduplicated, filtered to `[60, 200]` and sorted ascending; `[120]` when
the histogram is empty or nothing survives the filter. -/
def analyzeIOIHistogram (state : BPMState) : List ℤ :=
  if state.ioiHistogram.length = 0 then [120]
  else
    let entries := stableSort (fun a b => decide (b.2 < a.2)) state.ioiHistogram
    let topEntries := entries.take 5
    let candidateBPMs := topEntries.foldl
      (fun acc p =>
        if 1 < p.2 then
          let bpm : ℤ := round (60000 / p.1)
          acc ++ [bpm, round ((bpm : ℚ) * 2), round ((bpm : ℚ) / 2),
                  round ((bpm : ℚ) * 3 / 2), round ((bpm : ℚ) * 4 / 3)]
        else acc)
      []
    let uniqueBPMs := stableSort (fun a b => decide (a < b))
      ((jsDedup candidateBPMs).filter (fun b => decide (60 ≤ b ∧ b ≤ 200)))
    if 0 < uniqueBPMs.length then uniqueBPMs else [120]

/-- All unordered pairs of onset times in source order (outer index `i`,
inner index `j > i`), as used by `performAutocorrelation`. -/
def onsetPairs (l : List ℚ) : List (ℚ × ℚ) :=
  (l.tails.map (fun t =>
    match t with
    | [] => []
    | x :: xs => xs.map (fun y => (x, y)))).flatten

/-- The alignment score one candidate BPM receives in
`performAutocorrelation`: over all onset pairs, intervals within 10%
relative error of an integer multiple of the beat interval contribute
`1 / (1 + error)`; the total is normalized by the number of pairs. -/
def autocorrelationScore (bpm : ℤ) (onsets : List ℚ) : ℚ :=
  let beatInterval : ℚ := 60000 / (bpm : ℚ)
  let raw := (onsetPairs onsets).foldl
    (fun acc p =>
      let interval := p.2 - p.1
      let beatRatio := interval / beatInterval
      let nearestBeat : ℤ := round beatRatio
      if 0 < nearestBeat then
        let err := |beatRatio - (nearestBeat : ℚ)| / (nearestBeat : ℚ)
        if err < 1/10 then acc + 1 / (1 + err) else acc
      else acc)
    0
  let numPairs : ℚ := ((onsets.length : ℚ) * ((onsets.length : ℚ) - 1)) / 2
  raw / numPairs

/-- `AudioUtils.performAutocorrelation`: with fewer than four onsets,
`candidateBPMs[0] || 120` (JavaScript: both a missing element and the
number `0` are falsy); otherwise the candidate with the strictly highest
score, ties keeping the earliest candidate. -/
def performAutocorrelation (candidateBPMs : List ℤ) (onsets : List ℚ) : ℤ :=
  if onsets.length < 4 then
    match candidateBPMs.head? with
    | some c => if c = 0 then 120 else c
    | none => 120
  else
    (candidateBPMs.foldl
      (fun (acc : ℤ × ℚ) bpm =>
        let score := autocorrelationScore bpm onsets
        if acc.2 < score then (bpm, score) else acc)
      (candidateBPMs.headD 120, 0)).1

/-- `AudioUtils.calculateWeightedBPM`: `120` on an empty history,
otherwise `round (weightedSum / totalWeight)` with linear recency
weights `(i+1)/length` accumulated left to right. -/
def calculateWeightedBPM (bpmHistory : List ℤ) : ℤ :=
  if bpmHistory.length = 0 then 120
  else
    let acc := bpmHistory.enum.foldl
      (fun (a : ℚ × ℚ) p =>
        (a.1 + (p.2 : ℚ) * (((p.1 : ℚ) + 1) / (bpmHistory.length : ℚ)),
         a.2 + ((p.1 : ℚ) + 1) / (bpmHistory.length : ℚ)))
      (0, 0)
    round (acc.1 / acc.2)

/-- The insertion-ordered `Map` of candidate multiplicities built in the
fallback branch of `autocorrelationAnalysis`. -/
def buildCounts (l : List ℤ) : List (ℤ × ℕ) :=
  l.foldl
    (fun m b =>
      if m.any (fun p => decide (p.1 = b)) then
        m.map (fun p => if p.1 = b then (p.1, p.2 + 1) else p)
      else m ++ [(b, 1)])
    []

/-- Result of `autocorrelationAnalysis`: the published BPM and the
mutated state. -/
structure BPMOut where
  bpm : ℤ
  state : BPMState
  deriving Repr, DecidableEq

/-- `AudioUtils.autocorrelationAnalysis`.  Empty candidate list: the
last BPM-history entry or 120.  With at least 8 stored onsets: the
autocorrelation winner is appended to the BPM history (bounded to 20,
oldest dropped) and the recency-weighted average is returned.  With
fewer: the most frequent candidate by simple majority (stable sort by
count, descending), leaving the BPM history untouched. -/
def autocorrelationAnalysis (candidateBPMs : List ℤ) (state : BPMState) :
    BPMOut :=
  if candidateBPMs.length = 0 then
    ⟨state.bpmHistory.getLastD 120, state⟩
  else if 8 ≤ state.onsetHistory.length then
    let bestBPM := performAutocorrelation candidateBPMs state.onsetHistory
    let bh0 := state.bpmHistory ++ [bestBPM]
    let bh := if 20 < bh0.length then bh0.drop 1 else bh0
    ⟨calculateWeightedBPM bh, { state with bpmHistory := bh }⟩
  else
    let sorted := stableSort (fun a b => decide (b.2 < a.2))
      (buildCounts candidateBPMs)
    ⟨match sorted.head? with
      | some p => p.1
      | none => 120, state⟩

/-- Result of `calculateBeatIntensity`: the intensity and the mutated
state (`lastBeatTime` is updated only when an onset above 0.1 fired). -/
structure IntensityOut where
  intensity : ℚ
  state : BPMState
  deriving Repr, DecidableEq

/-- `AudioUtils.calculateBeatIntensity`: onset strength above `0.1`
yields `min (strength * 2) 1` and records the beat time; otherwise the
intensity fades linearly to zero over
`min (beatInterval * 0.3) 300` ms since the last beat. -/
def calculateBeatIntensity (onsetStrength : ℚ) (bpm : ℤ) (currentTime : ℚ)
    (state : BPMState) : IntensityOut :=
  if onsetStrength > 1/10 then
    ⟨min (onsetStrength * 2) 1, { state with lastBeatTime := currentTime }⟩
  else
    let timeSinceLastBeat := currentTime - state.lastBeatTime
    let beatInterval : ℚ := 60000 / (bpm : ℚ)
    let fadeTime := min (beatInterval * (3/10)) 300
    if timeSinceLastBeat < fadeTime then
      ⟨max 0 (1 - timeSinceLastBeat / fadeTime), state⟩
    else ⟨0, state⟩

/-- Result of one `detectBPM` tick. -/
structure DetectResult where
  bpm : ℤ
  beatIntensity : ℚ
  state : BPMState
  deriving Repr, DecidableEq

/-- The threshold the onset strength must exceed for the IOI histogram
to be updated in `detectBPM`: lowered to `0.08` for bass-heavy frames
(`lowFrequencyAverage > 0.5`), `0.1` otherwise. -/
def onsetGateThreshold (lowFrequencyAverage : ℚ) : ℚ :=
  if lowFrequencyAverage > 1/2 then 2/25 else 1/10

/-- Steps 1–2 of `detectBPM`: the state after onset detection and the
conditional IOI-histogram update. -/
def postOnsetState (frequencyData : List ℚ) (lowFrequencyAverage : ℚ)
    (currentTime : ℚ) (state : BPMState) : BPMState :=
  let onset :=
    detectOnsets (normalizeSpectrum frequencyData lowFrequencyAverage)
      currentTime state
  if onset.onsetStrength > onsetGateThreshold lowFrequencyAverage then
    updateIOIHistogram onset.state
  else onset.state

/-- `AudioUtils.detectBPM`: one detection-path tick.  Normalize the
frame, run onset detection, update the IOI histogram when the onset
strength exceeds the (bass-dependent) threshold, extract candidate BPMs,
run the autocorrelation stage, and derive the beat intensity (amplified
by 1.2, capped at 1, for bass-heavy frames). -/
def detectBPM (frequencyData : List ℚ) (lowFrequencyAverage : ℚ)
    (currentTime : ℚ) (state : BPMState) : DetectResult :=
  let onset :=
    detectOnsets (normalizeSpectrum frequencyData lowFrequencyAverage)
      currentTime state
  let s2 := postOnsetState frequencyData lowFrequencyAverage currentTime state
  let r := autocorrelationAnalysis (analyzeIOIHistogram s2) s2
  let i := calculateBeatIntensity onset.onsetStrength r.bpm currentTime r.state
  let beatIntensity :=
    if lowFrequencyAverage > 1/2 then min (i.intensity * (6/5)) 1
    else i.intensity
  ⟨r.bpm, beatIntensity, i.state⟩

/-- `AudioUtils.calculateSimpleBeatIntensity` (override path): a base of
`min (lowFrequencyAverage * 2.5) 1`, boosted by 1.5 (capped at 1) when
the average kick-band (2%–5% of the bin range) energy exceeds `0.6`.
With an empty kick band JavaScript compares `NaN > 0.6` and the boost is
skipped; the embedding's `0/0 = 0` fails the same test. -/
def calculateSimpleBeatIntensity (frequencyData : List ℚ)
    (lowFrequencyAverage : ℚ) : ℚ :=
  let base := min (lowFrequencyAverage * (5/2)) 1
  let kickStart := frequencyData.length / 50
  let kickEnd := frequencyData.length / 20
  let kickEnergy :=
    (((frequencyData.drop kickStart).take (kickEnd - kickStart)).foldl
      (fun a v => a + v / 255) 0) / ((kickEnd : ℚ) - (kickStart : ℚ))
  if kickEnergy > 3/5 then min (base * (3/2)) 1 else base

/-- The low-frequency average computed by `analyzeAudio`: the mean of
the first `⌊n/3⌋` byte magnitudes, normalized by 255. -/
def lowFrequencyAverageOf (frequencyData : List ℚ) : ℚ :=
  let lowFreqEnd := frequencyData.length / 3
  ((frequencyData.take lowFreqEnd).foldl (· + ·) 0) / (lowFreqEnd : ℚ) / 255

/-- The BPM-related outputs of `AudioUtils.analyzeAudio`. -/
structure AnalyzeResult where
  bpm : ℚ
  beatIntensity : ℚ
  isBpmSpecified : Bool
  deriving Repr, DecidableEq

/-- The BPM/beat-intensity portion of `AudioUtils.analyzeAudio`.  When
`specifiedBpm && specifiedBpm > 0` (JavaScript truthiness: a supplied,
nonzero, positive number) the supplied tempo is returned verbatim with
the simple intensity; otherwise the detection path runs.  The flag is
`specifiedBpm !== undefined`, i.e. whether a value was supplied at
all. -/
def analyzeAudio (frequencyData : List ℚ) (currentTime : ℚ)
    (specifiedBpm : Option ℚ) (state : BPMState) :
    AnalyzeResult × BPMState :=
  let lfa := lowFrequencyAverageOf frequencyData
  match specifiedBpm with
  | some v =>
    if v ≠ 0 ∧ v > 0 then
      (⟨v, calculateSimpleBeatIntensity frequencyData lfa, true⟩, state)
    else
      let d := detectBPM frequencyData lfa currentTime state
      (⟨(d.bpm : ℚ), d.beatIntensity, true⟩, d.state)
  | none =>
    let d := detectBPM frequencyData lfa currentTime state
    (⟨(d.bpm : ℚ), d.beatIntensity, false⟩, d.state)

/-- Fold a list of `(frequencyData, lowFrequencyAverage, currentTime)`
tick inputs through `detectBPM`. -/
def runDetect (inputs : List (List ℚ × ℚ × ℚ)) (s : BPMState) : BPMState :=
  inputs.foldl (fun st p => (detectBPM p.1 p.2.1 p.2.2 st).state) s

/-- The detector states reachable from the initial state through
detection-path ticks (with arbitrary frames, low-frequency averages and
tick times — a superset of what `analyzeAudio` can produce, since the
latter derives the low-frequency average from the frame) and resets.
Override-path ticks leave the state untouched. -/
inductive Reachable : BPMState → Prop
  | init : Reachable initState
  | reset {s : BPMState} : Reachable s → Reachable resetBPMDetection
  | tick (f : List ℚ) (lfa now : ℚ) {s : BPMState} :
      Reachable s → Reachable (detectBPM f lfa now s).state

/-- The invariant every reachable detector state satisfies: all smoothed
BPM-history entries lie in `[60, 200]` and all stored fluxes are
non-negative. -/
def StateInv (s : BPMState) : Prop :=
  (∀ b ∈ s.bpmHistory, 60 ≤ b ∧ b ≤ 200) ∧
  ∀ x ∈ s.spectralFluxHistory, 0 ≤ x

/-- Modelled from the spec (§4.4 BPM Smoother): the linear recency
weight of the i-th (0-indexed, oldest first) of n entries is
`(i+1)/n`. -/
def specRecencyWeight (n i : ℕ) : ℚ := ((i : ℚ) + 1) / (n : ℚ)

/-- Modelled from the spec (§4.4 BPM Smoother): the recency-weighted
average `Σ (bpm_i * w_i) / Σ w_i` over the indexed BPM history. -/
def specWeightedAverage (bh : List ℤ) : ℚ :=
  ((bh.enum.map (fun p => (p.2 : ℚ) * specRecencyWeight bh.length p.1)).sum) /
  ((bh.enum.map (fun p => specRecencyWeight bh.length p.1)).sum)

/-- Modelled from the spec (§4.4 BPM Smoother): append to the BPM
history, bounded to 20 entries, dropping the oldest. -/
def specBoundedAppend (l : List ℤ) (x : ℤ) : List ℤ :=
  if 20 < (l ++ [x]).length then (l ++ [x]).drop 1 else l ++ [x]

/-- Modelled from the spec (§4.2 IOI Histogram): the interval from each
prior onset timestamp to the latest one. -/
def specIOIIntervals (onsetHistory : List ℚ) : List ℚ :=
  onsetHistory.dropLast.map (fun t => onsetHistory.getLastD 0 - t)

/-- Modelled from the spec (§4.2 IOI Histogram): the nearest 10 ms
bucket of an interval. -/
def specBucket (interval : ℚ) : ℚ := ((round (interval / 10) : ℤ) : ℚ) * 10

/-- Modelled from the spec (§4.2 IOI Histogram): for every interval
inside `[300, 2000]` ms, increment the weight of its bucket by 1. -/
def specIOIIncrement (intervals : List ℚ) (hist : List (ℚ × ℚ)) :
    List (ℚ × ℚ) :=
  intervals.foldl
    (fun m itv =>
      if 300 ≤ itv ∧ itv ≤ 2000 then
        mapSet m (specBucket itv) (mapGetD m (specBucket itv) 0 + 1)
      else m)
    hist

/-- Modelled from the spec (§4.2 IOI Histogram): multiply every bucket
weight by 0.95 and delete buckets whose weight falls below 0.1. -/
def specIOIDecay (hist : List (ℚ × ℚ)) : List (ℚ × ℚ) :=
  hist.filterMap (fun p =>
    if p.2 * (19/20) < 1/10 then none else some (p.1, p.2 * (19/20)))

/-- The tick sequence refuting C3: three silent frames, a pulse at
3000 ms, then an unchanged frame at 18500 ms (no onset, hence no
pruning). -/
def c3run : List (List ℚ × ℚ × ℚ) :=
  [([0], 0, 0), ([0], 0, 1000), ([0], 0, 2000), ([255], 0, 3000),
   ([255], 0, 18500)]

/-- The first ten ticks of the run refuting C5: silence, strong pulses
at 1500, 2500 and 3500 ms (populating the histogram), then a ramp that
sets up a positive flux median. -/
def c5run : List (List ℚ × ℚ × ℚ) :=
  [([0], 0, 0), ([0], 0, 500), ([0], 0, 1000), ([255], 0, 1500),
   ([0], 0, 2000), ([255], 0, 2500), ([0], 0, 3000), ([128], 0, 3500),
   ([255], 0, 4000), ([0], 0, 4500)]

/-- A state with eight stored onsets, used to witness the amended C7 on
its autocorrelation branch. -/
def c7state : BPMState :=
  ⟨[0, 0, 0, 0, 0, 0, 0, 0], 0, [], 0, [], none, []⟩

/-! ### Properties of the sorting and map helpers -/

theorem stableInsert_perm (lt : α → α → Bool) (x : α) (l : List α) :
    (stableInsert lt x l).Perm (x :: l) := by
  induction l with
  | nil => simp [stableInsert]
  | cons y ys ih =>
    simp only [stableInsert]
    split
    · exact (ih.cons y).trans (List.Perm.swap x y ys)
    · exact List.Perm.refl _

theorem stableSort_perm (lt : α → α → Bool) (l : List α) :
    (stableSort lt l).Perm l := by
  induction l with
  | nil => simp [stableSort]
  | cons x xs ih => exact (stableInsert_perm lt x _).trans (ih.cons x)

theorem mem_stableSort (lt : α → α → Bool) (l : List α) (a : α) :
    a ∈ stableSort lt l ↔ a ∈ l :=
  (stableSort_perm lt l).mem_iff

theorem stableInsert_eq_cons (lt : α → α → Bool) (x : α) (l : List α)
    (h : ∀ y ∈ l, lt y x = false) : stableInsert lt x l = x :: l := by
  cases l with
  | nil => rfl
  | cons y ys => simp [stableInsert, h y (by simp)]

theorem stableSort_eq_self (lt : α → α → Bool) (l : List α)
    (h : ∀ x ∈ l, ∀ y ∈ l, lt x y = false) : stableSort lt l = l := by
  induction l with
  | nil => rfl
  | cons x xs ih =>
    have hxs : stableSort lt xs = xs :=
      ih (fun a ha b hb =>
        h a (List.mem_cons_of_mem _ ha) b (List.mem_cons_of_mem _ hb))
    simp only [stableSort, hxs]
    exact stableInsert_eq_cons _ _ _
      (fun y hy => h y (List.mem_cons_of_mem _ hy) x (List.mem_cons_self _ _))

theorem stableInsert_pairwise [LinearOrder α] (x : α) (l : List α)
    (h : l.Pairwise (· ≤ ·)) :
    (stableInsert (fun a b => decide (a < b)) x l).Pairwise (· ≤ ·) := by
  induction l with
  | nil => simp [stableInsert]
  | cons y ys ih =>
    rcases List.pairwise_cons.mp h with ⟨hy, hys⟩
    simp only [stableInsert]
    split
    · next hlt =>
      refine List.pairwise_cons.mpr ⟨?_, ih hys⟩
      intro z hz
      rcases List.mem_cons.mp ((stableInsert_perm _ x ys).mem_iff.mp hz) with rfl | hzys
      · exact le_of_lt (of_decide_eq_true hlt)
      · exact hy z hzys
    · next hlt =>
      have hxy : x ≤ y := le_of_not_lt (by simpa using hlt)
      refine List.pairwise_cons.mpr ⟨?_, h⟩
      intro z hz
      rcases List.mem_cons.mp hz with rfl | hzys
      · exact hxy
      · exact hxy.trans (hy z hzys)

theorem stableSort_pairwise [LinearOrder α] (l : List α) :
    (stableSort (fun a b => decide (a < b)) l).Pairwise (· ≤ ·) := by
  induction l with
  | nil => simp [stableSort]
  | cons x xs ih => exact stableInsert_pairwise x _ ih

theorem mem_jsDedupAux (seen : List ℤ) (l : List ℤ) (x : ℤ) :
    x ∈ jsDedupAux seen l ↔ x ∈ l ∧ x ∉ seen := by
  induction l generalizing seen with
  | nil => simp [jsDedupAux]
  | cons y ys ih =>
    simp only [jsDedupAux]
    split
    · next hy =>
      rw [ih]
      constructor
      · rintro ⟨h1, h2⟩
        exact ⟨List.mem_cons_of_mem _ h1, h2⟩
      · rintro ⟨h1, h2⟩
        rcases List.mem_cons.mp h1 with rfl | h1
        · exact absurd hy h2
        · exact ⟨h1, h2⟩
    · next hy =>
      constructor
      · intro hx
        rcases List.mem_cons.mp hx with rfl | hx
        · exact ⟨List.mem_cons_self _ _, hy⟩
        · rcases (ih _).mp hx with ⟨h1, h2⟩
          exact ⟨List.mem_cons_of_mem _ h1, fun hs => h2 (List.mem_cons_of_mem _ hs)⟩
      · rintro ⟨h1, h2⟩
        rcases List.mem_cons.mp h1 with rfl | h1
        · exact List.mem_cons_self _ _
        · by_cases hxy : x = y
          · subst hxy; exact List.mem_cons_self _ _
          · exact List.mem_cons_of_mem _
              ((ih _).mpr ⟨h1, fun hs => by
                rcases List.mem_cons.mp hs with h | h
                · exact hxy h
                · exact h2 h⟩)

theorem jsDedupAux_nodup (seen : List ℤ) (l : List ℤ) :
    (jsDedupAux seen l).Nodup := by
  induction l generalizing seen with
  | nil => simp [jsDedupAux]
  | cons y ys ih =>
    simp only [jsDedupAux]
    split
    · exact ih seen
    · refine List.nodup_cons.mpr ⟨?_, ih _⟩
      intro hy
      exact ((mem_jsDedupAux _ _ _).mp hy).2 (List.mem_cons_self _ _)

theorem jsDedup_nodup (l : List ℤ) : (jsDedup l).Nodup :=
  jsDedupAux_nodup [] l

theorem buildCounts_eq_of_nodup (l : List ℤ) (hl : l.Nodup) :
    buildCounts l = l.map (fun b => (b, 1)) := by
  suffices h : ∀ (l : List ℤ) (acc : List (ℤ × ℕ)), l.Nodup →
      (∀ b ∈ l, ∀ p ∈ acc, p.1 ≠ b) →
      l.foldl
        (fun m b =>
          if m.any (fun p => decide (p.1 = b)) then
            m.map (fun p => if p.1 = b then (p.1, p.2 + 1) else p)
          else m ++ [(b, 1)])
        acc = acc ++ l.map (fun b => (b, 1)) by
    simpa [buildCounts] using h l [] hl (by simp)
  intro l
  induction l with
  | nil => intro acc _ _; simp
  | cons b xs ih =>
    intro acc hnd hdisj
    have hany : (acc.any (fun p => decide (p.1 = b))) = false := by
      rw [List.any_eq_false]
      intro p hp
      simpa using hdisj b (List.mem_cons_self _ _) p hp
    rcases List.nodup_cons.mp hnd with ⟨hb, hxs⟩
    simp only [List.foldl_cons, hany, Bool.false_eq_true, if_false]
    rw [ih (acc ++ [(b, 1)]) hxs ?_]
    · simp
    · intro c hc p hp
      rcases List.mem_append.mp hp with hp | hp
      · exact hdisj c (List.mem_cons_of_mem _ hc) p hp
      · simp only [List.mem_singleton] at hp
        subst hp
        simp only [ne_eq]
        intro hcb
        subst hcb
        exact hb hc

/-! ### Which state fields each stage leaves untouched -/

theorem detectOnsets_preserves (spectrum : List ℚ) (now : ℚ) (s : BPMState) :
    (detectOnsets spectrum now s).state.bpmHistory = s.bpmHistory ∧
    (detectOnsets spectrum now s).state.lastBeatTime = s.lastBeatTime ∧
    (detectOnsets spectrum now s).state.ioiHistogram = s.ioiHistogram := by
  cases hps : s.previousSpectrum with
  | none => simp [detectOnsets, hps]
  | some prev =>
    simp only [detectOnsets, hps]
    split_ifs <;> simp

theorem updateIOIHistogram_preserves (s : BPMState) :
    (updateIOIHistogram s).onsetHistory = s.onsetHistory ∧
    (updateIOIHistogram s).lastOnsetTime = s.lastOnsetTime ∧
    (updateIOIHistogram s).bpmHistory = s.bpmHistory ∧
    (updateIOIHistogram s).lastBeatTime = s.lastBeatTime ∧
    (updateIOIHistogram s).spectralFluxHistory = s.spectralFluxHistory ∧
    (updateIOIHistogram s).previousSpectrum = s.previousSpectrum := by
  unfold updateIOIHistogram
  split <;> simp

theorem autocorrelationAnalysis_preserves (c : List ℤ) (s : BPMState) :
    (autocorrelationAnalysis c s).state.onsetHistory = s.onsetHistory ∧
    (autocorrelationAnalysis c s).state.lastOnsetTime = s.lastOnsetTime ∧
    (autocorrelationAnalysis c s).state.lastBeatTime = s.lastBeatTime ∧
    (autocorrelationAnalysis c s).state.spectralFluxHistory =
      s.spectralFluxHistory ∧
    (autocorrelationAnalysis c s).state.previousSpectrum =
      s.previousSpectrum ∧
    (autocorrelationAnalysis c s).state.ioiHistogram = s.ioiHistogram := by
  unfold autocorrelationAnalysis
  split_ifs <;> simp

theorem calculateBeatIntensity_preserves (σ : ℚ) (bpm : ℤ) (now : ℚ)
    (s : BPMState) :
    (calculateBeatIntensity σ bpm now s).state.onsetHistory = s.onsetHistory ∧
    (calculateBeatIntensity σ bpm now s).state.lastOnsetTime =
      s.lastOnsetTime ∧
    (calculateBeatIntensity σ bpm now s).state.bpmHistory = s.bpmHistory ∧
    (calculateBeatIntensity σ bpm now s).state.spectralFluxHistory =
      s.spectralFluxHistory ∧
    (calculateBeatIntensity σ bpm now s).state.previousSpectrum =
      s.previousSpectrum ∧
    (calculateBeatIntensity σ bpm now s).state.ioiHistogram =
      s.ioiHistogram := by
  simp only [calculateBeatIntensity]
  split_ifs <;> simp

theorem postOnsetState_bpmHistory (f : List ℚ) (lfa now : ℚ) (s : BPMState) :
    (postOnsetState f lfa now s).bpmHistory = s.bpmHistory := by
  simp only [postOnsetState]
  split
  · rw [(updateIOIHistogram_preserves _).2.2.1]
    exact (detectOnsets_preserves _ _ _).1
  · exact (detectOnsets_preserves _ _ _).1

theorem postOnsetState_onsetHistory (f : List ℚ) (lfa now : ℚ) (s : BPMState) :
    (postOnsetState f lfa now s).onsetHistory =
      (detectOnsets (normalizeSpectrum f lfa) now s).state.onsetHistory := by
  simp only [postOnsetState]
  split
  · exact (updateIOIHistogram_preserves _).1
  · rfl

theorem postOnsetState_fluxHistory (f : List ℚ) (lfa now : ℚ) (s : BPMState) :
    (postOnsetState f lfa now s).spectralFluxHistory =
      (detectOnsets (normalizeSpectrum f lfa) now s).state.spectralFluxHistory := by
  simp only [postOnsetState]
  split
  · exact (updateIOIHistogram_preserves _).2.2.2.2.1
  · rfl

theorem postOnsetState_lastBeatTime (f : List ℚ) (lfa now : ℚ) (s : BPMState) :
    (postOnsetState f lfa now s).lastBeatTime = s.lastBeatTime := by
  simp only [postOnsetState]
  split
  · rw [(updateIOIHistogram_preserves _).2.2.2.1]
    exact (detectOnsets_preserves _ _ _).2.1
  · exact (detectOnsets_preserves _ _ _).2.1

theorem detectBPM_state_eq (f : List ℚ) (lfa now : ℚ) (s : BPMState) :
    (detectBPM f lfa now s).state =
      (calculateBeatIntensity
        (detectOnsets (normalizeSpectrum f lfa) now s).onsetStrength
        (autocorrelationAnalysis
          (analyzeIOIHistogram (postOnsetState f lfa now s))
          (postOnsetState f lfa now s)).bpm
        now
        (autocorrelationAnalysis
          (analyzeIOIHistogram (postOnsetState f lfa now s))
          (postOnsetState f lfa now s)).state).state := rfl

theorem detectBPM_bpm_eq (f : List ℚ) (lfa now : ℚ) (s : BPMState) :
    (detectBPM f lfa now s).bpm =
      (autocorrelationAnalysis
        (analyzeIOIHistogram (postOnsetState f lfa now s))
        (postOnsetState f lfa now s)).bpm := rfl

theorem detectBPM_bpmHistory (f : List ℚ) (lfa now : ℚ) (s : BPMState) :
    (detectBPM f lfa now s).state.bpmHistory =
      (autocorrelationAnalysis
        (analyzeIOIHistogram (postOnsetState f lfa now s))
        (postOnsetState f lfa now s)).state.bpmHistory := by
  rw [detectBPM_state_eq]
  exact (calculateBeatIntensity_preserves _ _ _ _).2.2.1

theorem detectBPM_fluxHistory (f : List ℚ) (lfa now : ℚ) (s : BPMState) :
    (detectBPM f lfa now s).state.spectralFluxHistory =
      (detectOnsets (normalizeSpectrum f lfa) now s).state.spectralFluxHistory := by
  rw [detectBPM_state_eq]
  rw [(calculateBeatIntensity_preserves _ _ _ _).2.2.2.1]
  rw [(autocorrelationAnalysis_preserves _ _).2.2.2.1]
  exact postOnsetState_fluxHistory f lfa now s

theorem detectBPM_onsetHistory (f : List ℚ) (lfa now : ℚ) (s : BPMState) :
    (detectBPM f lfa now s).state.onsetHistory =
      (detectOnsets (normalizeSpectrum f lfa) now s).state.onsetHistory := by
  rw [detectBPM_state_eq]
  rw [(calculateBeatIntensity_preserves _ _ _ _).1]
  rw [(autocorrelationAnalysis_preserves _ _).1]
  exact postOnsetState_onsetHistory f lfa now s

theorem detectBPM_ioiHistogram (f : List ℚ) (lfa now : ℚ) (s : BPMState) :
    (detectBPM f lfa now s).state.ioiHistogram =
      (postOnsetState f lfa now s).ioiHistogram := by
  rw [detectBPM_state_eq]
  rw [(calculateBeatIntensity_preserves _ _ _ _).2.2.2.2.2]
  exact (autocorrelationAnalysis_preserves _ _).2.2.2.2.2

/-! ### Non-negativity of fluxes, medians and onset strengths -/

theorem foldl_nonneg_pair {β : Type*} (g : ℚ × ℚ → β → ℚ × ℚ)
    (hg : ∀ a x, 0 ≤ a.1 → 0 ≤ a.2 → 0 ≤ (g a x).1 ∧ 0 ≤ (g a x).2)
    (l : List β) (a : ℚ × ℚ) (h1 : 0 ≤ a.1) (h2 : 0 ≤ a.2) :
    0 ≤ (l.foldl g a).1 ∧ 0 ≤ (l.foldl g a).2 := by
  induction l generalizing a with
  | nil => exact ⟨h1, h2⟩
  | cons x xs ih => exact ih _ (hg a x h1 h2).1 (hg a x h1 h2).2

theorem fluxWeight_pos (i n : ℕ) : 0 < fluxWeight i n := by
  simp only [fluxWeight]
  split_ifs <;> norm_num

theorem spectralFlux_nonneg (spectrum prev : List ℚ) :
    0 ≤ spectralFlux spectrum prev := by
  unfold spectralFlux
  refine div_nonneg ?_ ?_
  · refine (foldl_nonneg_pair _ ?_ _ _ le_rfl le_rfl).1
    intro a x ha1 ha2
    constructor
    · refine add_nonneg ha1 ?_
      rcases prev.get? x.1 with _ | pv
      · exact le_rfl
      · dsimp only
        split_ifs with h
        · exact mul_nonneg (by linarith) (fluxWeight_pos _ _).le
        · exact le_rfl
    · exact add_nonneg ha2 (fluxWeight_pos _ _).le
  · refine (foldl_nonneg_pair _ ?_ _ _ le_rfl le_rfl).2
    intro a x ha1 ha2
    constructor
    · refine add_nonneg ha1 ?_
      rcases prev.get? x.1 with _ | pv
      · exact le_rfl
      · dsimp only
        split_ifs with h
        · exact mul_nonneg (by linarith) (fluxWeight_pos _ _).le
        · exact le_rfl
    · exact add_nonneg ha2 (fluxWeight_pos _ _).le

theorem fluxMedian_nonneg (l : List ℚ) (h : ∀ x ∈ l, 0 ≤ x) :
    0 ≤ fluxMedian l := by
  unfold fluxMedian
  have hgd : ∀ (L : List ℚ) (n : ℕ), L.getD n 0 = (L.get? n).getD 0 := by
    intro L n
    simp [List.getD_eq_getElem?_getD, List.get?_eq_getElem?]
  rw [hgd]
  rcases hg : (stableSort (fun a b => decide (a < b)) l).get? (l.length / 2) with _ | y
  · simp
  · simp only [Option.getD_some]
    exact h y ((mem_stableSort _ _ _).mp (List.get?_mem hg))

theorem adaptiveThreshold_nonneg (l : List ℚ) (h : ∀ x ∈ l, 0 ≤ x) :
    0 ≤ adaptiveThreshold l := by
  unfold adaptiveThreshold
  refine mul_nonneg (fluxMedian_nonneg l h) ?_
  have hm := min_le_right
    ((l.foldl (fun a f => a + (f - fluxMedian l) ^ 2) 0) / (l.length : ℚ) * 100) 1
  linarith

theorem onsetStrengthOf_bounds (flux thr : ℚ) (h0 : 0 ≤ thr) (hf : thr < flux) :
    0 ≤ onsetStrengthOf flux thr ∧ onsetStrengthOf flux thr ≤ 1 := by
  unfold onsetStrengthOf
  split_ifs with h
  · norm_num
  · have hpos : 0 < thr := lt_of_le_of_ne h0 (Ne.symm h)
    refine ⟨le_min (div_nonneg (by linarith) (by linarith)) zero_le_one, min_le_right _ _⟩

theorem fluxHist_append_nonneg (spectrum prev : List ℚ) (s : BPMState)
    (hflux : ∀ x ∈ s.spectralFluxHistory, 0 ≤ x) :
    ∀ x ∈ s.spectralFluxHistory ++ [spectralFlux spectrum prev], 0 ≤ x := by
  intro x hx
  rcases List.mem_append.mp hx with h | h
  · exact hflux x h
  · rw [List.mem_singleton] at h
    subst h
    exact spectralFlux_nonneg _ _

theorem fluxHist_drop_nonneg (spectrum prev : List ℚ) (s : BPMState)
    (hflux : ∀ x ∈ s.spectralFluxHistory, 0 ≤ x) :
    ∀ x ∈ List.drop 1 (s.spectralFluxHistory ++ [spectralFlux spectrum prev]),
      0 ≤ x :=
  fun x hx =>
    fluxHist_append_nonneg spectrum prev s hflux x (List.mem_of_mem_drop hx)

theorem detectOnsets_strength_bounds (spectrum : List ℚ) (now : ℚ)
    (s : BPMState) (hflux : ∀ x ∈ s.spectralFluxHistory, 0 ≤ x) :
    0 ≤ (detectOnsets spectrum now s).onsetStrength ∧
    (detectOnsets spectrum now s).onsetStrength ≤ 1 := by
  cases hps : s.previousSpectrum with
  | none => simp [detectOnsets, hps]
  | some prev =>
    simp only [detectOnsets, hps]
    split
    · split
      · next hcond =>
        exact onsetStrengthOf_bounds _ _
          (adaptiveThreshold_nonneg _ (fluxHist_drop_nonneg spectrum prev s hflux))
          hcond.1
      · simp
    · split
      · next hcond =>
        exact onsetStrengthOf_bounds _ _
          (adaptiveThreshold_nonneg _ (fluxHist_append_nonneg spectrum prev s hflux))
          hcond.1
      · simp

theorem detectOnsets_flux_inv (spectrum : List ℚ) (now : ℚ) (s : BPMState)
    (hflux : ∀ x ∈ s.spectralFluxHistory, 0 ≤ x) :
    ∀ x ∈ (detectOnsets spectrum now s).state.spectralFluxHistory, 0 ≤ x := by
  cases hps : s.previousSpectrum with
  | none => simpa [detectOnsets, hps] using hflux
  | some prev =>
    simp only [detectOnsets, hps]
    split
    · split
      · exact fluxHist_drop_nonneg spectrum prev s hflux
      · exact fluxHist_drop_nonneg spectrum prev s hflux
    · split
      · exact fluxHist_append_nonneg spectrum prev s hflux
      · exact fluxHist_append_nonneg spectrum prev s hflux

/-! ### The BPM smoother: fold characterization and range -/

theorem weightedAcc (n : ℚ) (l : List (ℕ × ℤ)) :
    ∀ a : ℚ × ℚ,
      l.foldl (fun (a : ℚ × ℚ) p =>
        (a.1 + (p.2 : ℚ) * (((p.1 : ℚ) + 1) / n),
         a.2 + ((p.1 : ℚ) + 1) / n)) a =
      (a.1 + (l.map (fun p => (p.2 : ℚ) * (((p.1 : ℚ) + 1) / n))).sum,
       a.2 + (l.map (fun p => ((p.1 : ℚ) + 1) / n)).sum) := by
  induction l with
  | nil => intro a; simp
  | cons p t ih =>
    intro a
    simp only [List.foldl_cons, List.map_cons, List.sum_cons, ih]
    rw [Prod.mk.injEq]
    constructor <;> ring

theorem calculateWeightedBPM_eq_spec (bh : List ℤ) (h : bh ≠ []) :
    calculateWeightedBPM bh = round (specWeightedAverage bh) := by
  unfold calculateWeightedBPM specWeightedAverage specRecencyWeight
  rw [if_neg (by simpa using h)]
  simp only [weightedAcc (bh.length : ℚ) bh.enum (0, 0), zero_add]

theorem snd_mem_of_mem_enum {α : Type*} {l : List α} {p : ℕ × α}
    (h : p ∈ l.enum) : p.2 ∈ l := by
  rcases p with ⟨i, x⟩
  obtain ⟨-, hlt, hx⟩ := List.mem_enumFrom h
  simp only []
  rw [hx]
  apply List.getElem_mem

theorem enum_ne_nil {α : Type*} {l : List α} (h : l ≠ []) : l.enum ≠ [] := by
  intro hc
  apply h
  have := congrArg List.length hc
  rw [List.enum_length] at this
  exact List.length_eq_zero.mp this

theorem sum_weights_pos (bh : List ℤ) (h : bh ≠ []) :
    0 < (bh.enum.map (fun p => ((p.1 : ℚ) + 1) / (bh.length : ℚ))).sum := by
  have hlen : (0 : ℚ) < (bh.length : ℚ) := by
    exact_mod_cast List.length_pos.mpr h
  apply List.sum_pos
  · intro x hx
    rcases List.mem_map.mp hx with ⟨p, hp, rfl⟩
    positivity
  · simp only [ne_eq, List.map_eq_nil_iff]
    exact enum_ne_nil h

theorem weighted_sum_bounds (bh : List ℤ)
    (hr : ∀ b ∈ bh, 60 ≤ b ∧ b ≤ 200) :
    60 * (bh.enum.map (fun p => ((p.1 : ℚ) + 1) / (bh.length : ℚ))).sum ≤
      (bh.enum.map (fun p => (p.2 : ℚ) * (((p.1 : ℚ) + 1) / (bh.length : ℚ)))).sum ∧
    (bh.enum.map (fun p => (p.2 : ℚ) * (((p.1 : ℚ) + 1) / (bh.length : ℚ)))).sum ≤
      200 * (bh.enum.map (fun p => ((p.1 : ℚ) + 1) / (bh.length : ℚ))).sum := by
  have hw : ∀ p : ℕ × ℤ, (0 : ℚ) ≤ ((p.1 : ℚ) + 1) / (bh.length : ℚ) := by
    intro p
    have h1 : (0 : ℚ) ≤ (p.1 : ℚ) + 1 := by positivity
    have h2 : (0 : ℚ) ≤ (bh.length : ℚ) := by positivity
    exact div_nonneg h1 h2
  constructor
  · rw [← List.sum_map_mul_left]
    apply List.sum_le_sum
    intro p hp
    have hb := (hr p.2 (snd_mem_of_mem_enum hp)).1
    have hb2 : (60 : ℚ) ≤ (p.2 : ℚ) := by exact_mod_cast hb
    exact mul_le_mul_of_nonneg_right hb2 (hw p)
  · rw [← List.sum_map_mul_left]
    apply List.sum_le_sum
    intro p hp
    have hb := (hr p.2 (snd_mem_of_mem_enum hp)).2
    have hb2 : (p.2 : ℚ) ≤ (200 : ℚ) := by exact_mod_cast hb
    exact mul_le_mul_of_nonneg_right hb2 (hw p)

theorem round_range {q : ℚ} (h1 : (60 : ℚ) ≤ q) (h2 : q ≤ 200) :
    60 ≤ round q ∧ round q ≤ 200 := by
  rw [round_eq]
  constructor
  · apply Int.le_floor.mpr
    push_cast
    linarith
  · have hlt : ⌊q + 1 / 2⌋ < 201 := by
      apply Int.floor_lt.mpr
      push_cast
      linarith
    omega

theorem calculateWeightedBPM_range (bh : List ℤ) (hne : bh ≠ [])
    (hr : ∀ b ∈ bh, 60 ≤ b ∧ b ≤ 200) :
    60 ≤ calculateWeightedBPM bh ∧ calculateWeightedBPM bh ≤ 200 := by
  rw [calculateWeightedBPM_eq_spec bh hne]
  have h2 := sum_weights_pos bh hne
  have hb := weighted_sum_bounds bh hr
  apply round_range
  · unfold specWeightedAverage specRecencyWeight
    rw [le_div_iff₀ h2]
    linarith [hb.1]
  · unfold specWeightedAverage specRecencyWeight
    rw [div_le_iff₀ h2]
    linarith [hb.2]

/-! ### Candidate extraction: soundness, non-emptiness, order -/

theorem analyzeIOIHistogram_ne_nil (s : BPMState) :
    analyzeIOIHistogram s ≠ [] := by
  simp only [analyzeIOIHistogram]
  split
  · simp
  · split
    · next h => exact List.ne_nil_of_length_pos h
    · simp

theorem analyzeIOIHistogram_range (s : BPMState) :
    ∀ b ∈ analyzeIOIHistogram s, 60 ≤ b ∧ b ≤ 200 := by
  simp only [analyzeIOIHistogram]
  split
  · intro b hb
    rw [List.mem_singleton] at hb
    subst hb
    norm_num
  · split
    · intro b hb
      rw [mem_stableSort] at hb
      have h2 := (List.mem_filter.mp hb).2
      exact of_decide_eq_true h2
    · intro b hb
      rw [List.mem_singleton] at hb
      subst hb
      norm_num

theorem analyzeIOIHistogram_nodup (s : BPMState) :
    (analyzeIOIHistogram s).Nodup := by
  simp only [analyzeIOIHistogram]
  split
  · simp
  · split
    · exact ((stableSort_perm _ _).nodup_iff).mpr
        ((jsDedup_nodup _).filter _)
    · simp

theorem analyzeIOIHistogram_sorted (s : BPMState) :
    (analyzeIOIHistogram s).Pairwise (· ≤ ·) := by
  simp only [analyzeIOIHistogram]
  split
  · simp
  · split
    · exact stableSort_pairwise _
    · simp

theorem performAutocorrelation_range (c : List ℤ) (onsets : List ℚ)
    (hne : c ≠ []) (hr : ∀ b ∈ c, 60 ≤ b ∧ b ≤ 200) :
    60 ≤ performAutocorrelation c onsets ∧
    performAutocorrelation c onsets ≤ 200 := by
  unfold performAutocorrelation
  split
  · cases c with
    | nil => exact absurd rfl hne
    | cons a t =>
      simp only [List.head?]
      have ha := hr a (List.mem_cons_self _ _)
      rw [if_neg (by omega : ¬ a = 0)]
      exact ha
  · have hstep : ∀ (L : List ℤ) (acc : ℤ × ℚ),
        60 ≤ acc.1 ∧ acc.1 ≤ 200 → (∀ b ∈ L, 60 ≤ b ∧ b ≤ 200) →
        60 ≤ (L.foldl (fun (acc : ℤ × ℚ) bpm =>
          if acc.2 < autocorrelationScore bpm onsets then
            (bpm, autocorrelationScore bpm onsets)
          else acc) acc).1 ∧
        (L.foldl (fun (acc : ℤ × ℚ) bpm =>
          if acc.2 < autocorrelationScore bpm onsets then
            (bpm, autocorrelationScore bpm onsets)
          else acc) acc).1 ≤ 200 := by
      intro L
      induction L with
      | nil => intro acc h _; exact h
      | cons b t ih =>
        intro acc h hL
        simp only [List.foldl_cons]
        apply ih
        · split_ifs with hs
          · exact hL b (List.mem_cons_self _ _)
          · exact h
        · intro b2 hb2
          exact hL b2 (List.mem_cons_of_mem _ hb2)
    apply hstep
    · cases c with
      | nil => exact absurd rfl hne
      | cons a t =>
        simpa using hr a (List.mem_cons_self _ _)
    · exact hr

/-! ### The state invariant and its preservation -/

theorem autocorrelationAnalysis_core (s2 : BPMState)
    (hbp : ∀ b ∈ s2.bpmHistory, 60 ≤ b ∧ b ≤ 200) :
    (60 ≤ (autocorrelationAnalysis (analyzeIOIHistogram s2) s2).bpm ∧
      (autocorrelationAnalysis (analyzeIOIHistogram s2) s2).bpm ≤ 200) ∧
    ∀ b ∈ (autocorrelationAnalysis (analyzeIOIHistogram s2) s2).state.bpmHistory,
      60 ≤ b ∧ b ≤ 200 := by
  have hne := analyzeIOIHistogram_ne_nil s2
  have hr := analyzeIOIHistogram_range s2
  have hnd := analyzeIOIHistogram_nodup s2
  unfold autocorrelationAnalysis
  split_ifs with h0 h8
  · exact absurd (List.length_eq_zero.mp h0) hne
  · have hbest := performAutocorrelation_range _ s2.onsetHistory hne hr
    have hbh : ∀ b ∈ (if 20 < (s2.bpmHistory ++
          [performAutocorrelation (analyzeIOIHistogram s2) s2.onsetHistory]).length
        then (s2.bpmHistory ++
          [performAutocorrelation (analyzeIOIHistogram s2) s2.onsetHistory]).drop 1
        else s2.bpmHistory ++
          [performAutocorrelation (analyzeIOIHistogram s2) s2.onsetHistory]),
        60 ≤ b ∧ b ≤ 200 := by
      intro b hb
      have hb2 : b ∈ s2.bpmHistory ++
          [performAutocorrelation (analyzeIOIHistogram s2) s2.onsetHistory] := by
        split at hb
        · exact List.mem_of_mem_drop hb
        · exact hb
      rcases List.mem_append.mp hb2 with h | h
      · exact hbp b h
      · rw [List.mem_singleton] at h
        subst h
        exact hbest
    have hbhne : (if 20 < (s2.bpmHistory ++
          [performAutocorrelation (analyzeIOIHistogram s2) s2.onsetHistory]).length
        then (s2.bpmHistory ++
          [performAutocorrelation (analyzeIOIHistogram s2) s2.onsetHistory]).drop 1
        else s2.bpmHistory ++
          [performAutocorrelation (analyzeIOIHistogram s2) s2.onsetHistory]) ≠ [] := by
      split
      · next hlen =>
        apply List.ne_nil_of_length_pos
        rw [List.length_drop]
        omega
      · simp
    exact ⟨calculateWeightedBPM_range _ hbhne hbh, hbh⟩
  · constructor
    · rw [buildCounts_eq_of_nodup _ hnd, stableSort_eq_self]
      · rcases hc : analyzeIOIHistogram s2 with _ | ⟨a, t⟩
        · exact absurd hc hne
        · simp only [List.map_cons, List.head?]
          have := hr a (by rw [hc]; exact List.mem_cons_self _ _)
          simpa using this
      · intro x hx y hy
        rcases List.mem_map.mp hx with ⟨bx, hbx, rfl⟩
        rcases List.mem_map.mp hy with ⟨by2, hby, rfl⟩
        simp
    · exact hbp

theorem detectBPM_inv (f : List ℚ) (lfa now : ℚ) (s : BPMState)
    (h : StateInv s) : StateInv (detectBPM f lfa now s).state := by
  obtain ⟨hbp, hfl⟩ := h
  have hs2bp : (postOnsetState f lfa now s).bpmHistory = s.bpmHistory :=
    postOnsetState_bpmHistory f lfa now s
  have hcore := autocorrelationAnalysis_core (postOnsetState f lfa now s)
    (by rw [hs2bp]; exact hbp)
  constructor
  · rw [detectBPM_bpmHistory]
    exact hcore.2
  · rw [detectBPM_fluxHistory]
    exact detectOnsets_flux_inv _ now s hfl

theorem reachable_inv {s : BPMState} (h : Reachable s) : StateInv s := by
  induction h with
  | init => exact ⟨by simp [initState], by simp [initState]⟩
  | reset _ _ => exact ⟨by simp [resetBPMDetection], by simp [resetBPMDetection]⟩
  | tick f lfa now _ ih => exact detectBPM_inv f lfa now _ ih

/-! ### Beat intensity bounds and the IOI update in spec form -/

theorem detectBPM_intensity_eq (f : List ℚ) (lfa now : ℚ) (s : BPMState) :
    (detectBPM f lfa now s).beatIntensity =
      if lfa > 1/2 then
        min ((calculateBeatIntensity
          (detectOnsets (normalizeSpectrum f lfa) now s).onsetStrength
          (autocorrelationAnalysis
            (analyzeIOIHistogram (postOnsetState f lfa now s))
            (postOnsetState f lfa now s)).bpm
          now
          (autocorrelationAnalysis
            (analyzeIOIHistogram (postOnsetState f lfa now s))
            (postOnsetState f lfa now s)).state).intensity * (6/5)) 1
      else
        (calculateBeatIntensity
          (detectOnsets (normalizeSpectrum f lfa) now s).onsetStrength
          (autocorrelationAnalysis
            (analyzeIOIHistogram (postOnsetState f lfa now s))
            (postOnsetState f lfa now s)).bpm
          now
          (autocorrelationAnalysis
            (analyzeIOIHistogram (postOnsetState f lfa now s))
            (postOnsetState f lfa now s)).state).intensity := rfl

theorem calculateBeatIntensity_range (σ : ℚ) (bpm : ℤ) (now : ℚ)
    (st : BPMState) (hbpm : 60 ≤ bpm)
    (hlb : st.lastBeatTime ≤ now) :
    0 ≤ (calculateBeatIntensity σ bpm now st).intensity ∧
    (calculateBeatIntensity σ bpm now st).intensity ≤ 1 := by
  simp only [calculateBeatIntensity]
  split_ifs with h1 h2
  · exact ⟨le_min (by linarith) zero_le_one, min_le_right _ _⟩
  · have hbq : (0 : ℚ) < (bpm : ℚ) := by exact_mod_cast (by omega : (0:ℤ) < bpm)
    have hbi : (0 : ℚ) < 60000 / (bpm : ℚ) := by positivity
    have hfade : (0 : ℚ) < min (60000 / (bpm : ℚ) * (3/10)) 300 :=
      lt_min (by linarith) (by norm_num)
    have hts : 0 ≤ now - st.lastBeatTime := by linarith
    constructor
    · exact le_max_left _ _
    · apply max_le zero_le_one
      have : 0 ≤ (now - st.lastBeatTime) / min (60000 / (bpm : ℚ) * (3/10)) 300 :=
        div_nonneg hts hfade.le
      linarith
  · exact ⟨le_refl 0, zero_le_one⟩

theorem updateIOIHistogram_eq_spec (s : BPMState) :
    (updateIOIHistogram s).ioiHistogram =
      if 2 ≤ s.onsetHistory.length then
        specIOIDecay (specIOIIncrement (specIOIIntervals s.onsetHistory)
          s.ioiHistogram)
      else s.ioiHistogram := by
  simp only [updateIOIHistogram, specIOIDecay, specIOIIncrement,
    specIOIIntervals, specBucket]
  split
  · simp only [List.foldl_map]
  · rfl

/-! ### The claims -/

/-- C1: for every tick where the caller supplies a specified tempo
greater than 0, the published bpm equals that supplied value exactly,
regardless of the spectrum content and of the detector state. -/
theorem claim_C1_override_bpm_exact (f : List ℚ) (now : ℚ) (s : BPMState)
    (v : ℚ) (hv : 0 < v) :
    ((analyzeAudio f now (some v) s).1).bpm = v := by
  simp only [analyzeAudio]
  rw [if_pos ⟨ne_of_gt hv, hv⟩]

theorem claim_C1_witness :
    (0 : ℚ) < 3 ∧ ((analyzeAudio [] 0 (some 3) initState).1).bpm = 3 :=
  ⟨by norm_num, claim_C1_override_bpm_exact [] 0 initState 3 (by norm_num)⟩

/-- C2: for every tick on the detection path and every reachable
detector state, the published bpm lies in [60, 200]. -/
theorem claim_C2_detected_bpm_in_range {s : BPMState} (hs : Reachable s)
    (f : List ℚ) (lfa now : ℚ) :
    60 ≤ (detectBPM f lfa now s).bpm ∧ (detectBPM f lfa now s).bpm ≤ 200 := by
  have hinv := reachable_inv hs
  rw [detectBPM_bpm_eq]
  exact (autocorrelationAnalysis_core (postOnsetState f lfa now s)
    (by rw [postOnsetState_bpmHistory]; exact hinv.1)).1

theorem claim_C2_witness :
    60 ≤ (detectBPM [] 0 0 initState).bpm ∧
    (detectBPM [] 0 0 initState).bpm ≤ 200 :=
  claim_C2_detected_bpm_in_range Reachable.init [] 0 0

/-- C9 (amended): the returned `isBpmSpecified` flag is true iff a
specified tempo was supplied at all (`specifiedBpm !== undefined`),
regardless of whether it was positive, i.e. regardless of whether the
override path actually produced the published tempo. -/
theorem claim_C9_flag_iff_supplied (f : List ℚ) (now : ℚ)
    (spec : Option ℚ) (s : BPMState) :
    ((analyzeAudio f now spec s).1).isBpmSpecified = spec.isSome := by
  cases spec with
  | none => simp only [analyzeAudio, Option.isSome]
  | some v =>
    simp only [analyzeAudio, Option.isSome]
    split_ifs <;> rfl

/-- C9 counterexample: supplying `specifiedBpm = 0` makes the flag true
even though `0 > 0` fails and the published tempo (120) came from the
detection path, so the flag is not equivalent to the override path being
active. -/
theorem claim_C9_counterexample :
    ((analyzeAudio [0, 0, 0] 0 (some 0) initState).1).isBpmSpecified = true ∧
    ((analyzeAudio [0, 0, 0] 0 (some 0) initState).1).bpm = 120 ∧
    ¬ ((0 : ℚ) > 0) := by
  have hl : lowFrequencyAverageOf [0, 0, 0] = 0 := by
    norm_num [lowFrequencyAverageOf]
  have hn : normalizeSpectrum [0, 0, 0] 0 = [0, 0, 0] := by
    norm_num [normalizeSpectrum, List.enum, List.enumFrom]
  have ho : detectOnsets [0, 0, 0] 0 initState =
      ⟨0, ⟨[], 0, [], 0, [], some [0, 0, 0], []⟩⟩ := by
    norm_num [detectOnsets, initState]
  have ha : analyzeIOIHistogram ⟨[], 0, [], 0, [], some [0, 0, 0], []⟩ =
      [120] := by
    norm_num [analyzeIOIHistogram]
  have hb : autocorrelationAnalysis [120]
      ⟨[], 0, [], 0, [], some [0, 0, 0], []⟩ =
      ⟨120, ⟨[], 0, [], 0, [], some [0, 0, 0], []⟩⟩ := by
    norm_num [autocorrelationAnalysis, buildCounts, stableSort, stableInsert]
  have hc : calculateBeatIntensity 0 120 0
      ⟨[], 0, [], 0, [], some [0, 0, 0], []⟩ =
      ⟨1, ⟨[], 0, [], 0, [], some [0, 0, 0], []⟩⟩ := by
    norm_num [calculateBeatIntensity]
  have hd : detectBPM [0, 0, 0] 0 0 initState =
      ⟨120, 1, ⟨[], 0, [], 0, [], some [0, 0, 0], []⟩⟩ := by
    norm_num [detectBPM, postOnsetState, onsetGateThreshold, hn, ho, ha, hb, hc]
  refine ⟨?_, ?_, by norm_num⟩
  · norm_num [analyzeAudio, hl, hd]
  · norm_num [analyzeAudio, hl, hd]

/-- C10: on a detection tick where (after onset processing) fewer than
8 onsets are stored, the published BPM equals the smallest candidate:
the deduplicated ascending candidate list gives every candidate
multiplicity 1, the stable majority sort keeps the original order, and
its head — the minimum — is picked; the BPM history is neither appended
to nor smoothed on that tick. -/
theorem claim_C10_min_candidate (f : List ℚ) (lfa now : ℚ) (s : BPMState)
    (h8 : (postOnsetState f lfa now s).onsetHistory.length < 8) :
    (detectBPM f lfa now s).bpm =
      (analyzeIOIHistogram (postOnsetState f lfa now s)).headD 120 ∧
    (∀ b ∈ analyzeIOIHistogram (postOnsetState f lfa now s),
      (analyzeIOIHistogram (postOnsetState f lfa now s)).headD 120 ≤ b) ∧
    (detectBPM f lfa now s).state.bpmHistory = s.bpmHistory := by
  have hne := analyzeIOIHistogram_ne_nil (postOnsetState f lfa now s)
  have hnd := analyzeIOIHistogram_nodup (postOnsetState f lfa now s)
  have hsort := analyzeIOIHistogram_sorted (postOnsetState f lfa now s)
  have hlen0 : ¬ (analyzeIOIHistogram (postOnsetState f lfa now s)).length = 0 := by
    simpa [List.length_eq_zero] using hne
  refine ⟨?_, ?_, ?_⟩
  · rw [detectBPM_bpm_eq]
    unfold autocorrelationAnalysis
    rw [if_neg hlen0, if_neg (by omega)]
    rw [buildCounts_eq_of_nodup _ hnd, stableSort_eq_self]
    · rcases hc : analyzeIOIHistogram (postOnsetState f lfa now s) with _ | ⟨a, t⟩
      · exact absurd hc hne
      · simp [List.head?, List.headD]
    · intro x hx y hy
      rcases List.mem_map.mp hx with ⟨bx, hbx, rfl⟩
      rcases List.mem_map.mp hy with ⟨by2, hby, rfl⟩
      simp
  · intro b hb
    rcases hc : analyzeIOIHistogram (postOnsetState f lfa now s) with _ | ⟨a, t⟩
    · exact absurd hc hne
    · rw [hc] at hb hsort
      simp only [hc, List.headD]
      rcases List.mem_cons.mp hb with rfl | hbt
      · exact le_refl b
      · exact (List.pairwise_cons.mp hsort).1 b hbt
  · rw [detectBPM_bpmHistory]
    unfold autocorrelationAnalysis
    rw [if_neg hlen0, if_neg (by omega)]
    exact postOnsetState_bpmHistory f lfa now s

theorem claim_C10_witness :
    (postOnsetState [] 0 0 initState).onsetHistory.length < 8 ∧
    ((detectBPM [] 0 0 initState).bpm =
        (analyzeIOIHistogram (postOnsetState [] 0 0 initState)).headD 120 ∧
      (∀ b ∈ analyzeIOIHistogram (postOnsetState [] 0 0 initState),
        (analyzeIOIHistogram (postOnsetState [] 0 0 initState)).headD 120 ≤ b) ∧
      (detectBPM [] 0 0 initState).state.bpmHistory = initState.bpmHistory) := by
  have h8 : (postOnsetState [] 0 0 initState).onsetHistory.length < 8 := by
    norm_num [postOnsetState, detectOnsets, normalizeSpectrum, initState,
      onsetGateThreshold]
  exact ⟨h8, claim_C10_min_candidate [] 0 0 initState h8⟩

/-- C7 (amended): only on detection ticks where at least 8 onsets are
stored is the scorer winner appended to `bpmHistory` (bounded to 20,
oldest dropped) with the published BPM the rounded linear
recency-weighted average of the resulting history; on ticks with fewer
onsets `bpmHistory` is left unchanged.  The smoother defaults to 120 on
an empty history. -/
theorem claim_C7_smoother_conditional (c : List ℤ) (s : BPMState)
    (hc : c ≠ []) :
    (8 ≤ s.onsetHistory.length →
      (autocorrelationAnalysis c s).state.bpmHistory =
        specBoundedAppend s.bpmHistory
          (performAutocorrelation c s.onsetHistory) ∧
      (autocorrelationAnalysis c s).bpm =
        round (specWeightedAverage
          ((autocorrelationAnalysis c s).state.bpmHistory))) ∧
    (s.onsetHistory.length < 8 →
      (autocorrelationAnalysis c s).state.bpmHistory = s.bpmHistory) ∧
    calculateWeightedBPM [] = 120 := by
  have hlen0 : ¬ c.length = 0 := by simpa [List.length_eq_zero] using hc
  refine ⟨?_, ?_, by norm_num [calculateWeightedBPM]⟩
  · intro h8
    unfold autocorrelationAnalysis
    rw [if_neg hlen0, if_pos h8]
    have hbhne : (if 20 < (s.bpmHistory ++
          [performAutocorrelation c s.onsetHistory]).length
        then (s.bpmHistory ++
          [performAutocorrelation c s.onsetHistory]).drop 1
        else s.bpmHistory ++
          [performAutocorrelation c s.onsetHistory]) ≠ [] := by
      split
      · next hlen =>
        apply List.ne_nil_of_length_pos
        rw [List.length_drop]
        omega
      · simp
    constructor
    · simp [specBoundedAppend]
    · simpa using calculateWeightedBPM_eq_spec _ hbhne
  · intro h8
    unfold autocorrelationAnalysis
    rw [if_neg hlen0, if_neg (by omega)]

theorem claim_C7_witness :
    ([120] : List ℤ) ≠ [] ∧ 8 ≤ c7state.onsetHistory.length ∧
    ((autocorrelationAnalysis [120] c7state).state.bpmHistory =
        specBoundedAppend c7state.bpmHistory
          (performAutocorrelation [120] c7state.onsetHistory) ∧
      (autocorrelationAnalysis [120] c7state).bpm =
        round (specWeightedAverage
          ((autocorrelationAnalysis [120] c7state).state.bpmHistory))) :=
  ⟨by simp, by simp [c7state],
    (claim_C7_smoother_conditional [120] c7state (by simp)).1
      (by simp [c7state])⟩

/-- C7 counterexample: on the very first detection tick no onsets are
stored, so although the candidate stage wins with 120 and 120 is
published, nothing is appended to `bpmHistory` — it stays empty, against
the claim that the winner is appended on every detection tick. -/
theorem claim_C7_counterexample :
    (detectBPM [] 0 0 initState).bpm = 120 ∧
    (detectBPM [] 0 0 initState).state.bpmHistory = [] := by
  have hn : normalizeSpectrum [] 0 = [] := by
    norm_num [normalizeSpectrum]
  have ho : detectOnsets [] 0 initState =
      ⟨0, ⟨[], 0, [], 0, [], some [], []⟩⟩ := by
    norm_num [detectOnsets, initState]
  have ha : analyzeIOIHistogram ⟨[], 0, [], 0, [], some [], []⟩ = [120] := by
    norm_num [analyzeIOIHistogram]
  have hb : autocorrelationAnalysis [120] ⟨[], 0, [], 0, [], some [], []⟩ =
      ⟨120, ⟨[], 0, [], 0, [], some [], []⟩⟩ := by
    norm_num [autocorrelationAnalysis, buildCounts, stableSort, stableInsert]
  have hc : calculateBeatIntensity 0 120 0 ⟨[], 0, [], 0, [], some [], []⟩ =
      ⟨1, ⟨[], 0, [], 0, [], some [], []⟩⟩ := by
    norm_num [calculateBeatIntensity]
  have hd : detectBPM [] 0 0 initState =
      ⟨120, 1, ⟨[], 0, [], 0, [], some [], []⟩⟩ := by
    norm_num [detectBPM, postOnsetState, onsetGateThreshold, hn, ho, ha, hb, hc]
  rw [hd]
  exact ⟨rfl, rfl⟩

/-- C8 (amended): for byte magnitudes in [0, 255] and a low-frequency
average in [0, 1], every bin of the normalized spectrum lies in [0, 2]:
the low-frequency emphasis multiplies the first third of the bins by up
to 2, so the spectrum is not confined to [0, 1]. -/
theorem claim_C8_normalized_range (f : List ℚ) (lfa : ℚ)
    (hf : ∀ v ∈ f, 0 ≤ v ∧ v ≤ 255) (h0 : 0 ≤ lfa) (h1 : lfa ≤ 1) :
    ∀ x ∈ normalizeSpectrum f lfa, 0 ≤ x ∧ x ≤ 2 := by
  intro x hx
  simp only [normalizeSpectrum, List.mem_map] at hx
  obtain ⟨p, hp, rfl⟩ := hx
  have hv := hf p.2 (snd_mem_of_mem_enum hp)
  have hm1 : 0 ≤ min (lfa * 2) 1 := le_min (by linarith) zero_le_one
  have hm2 : min (lfa * 2) 1 ≤ 1 := min_le_right _ _
  have hd0 : 0 ≤ p.2 / 255 := div_nonneg hv.1 (by norm_num)
  have hd1 : p.2 / 255 ≤ 1 := by
    rw [div_le_one (by norm_num : (0:ℚ) < 255)]
    exact hv.2
  split_ifs with hlt
  · exact ⟨mul_nonneg hd0 (by linarith), by nlinarith⟩
  · exact ⟨mul_nonneg hd0 (by norm_num), by nlinarith⟩

theorem claim_C8_witness :
    (∀ v ∈ ([255, 255, 255] : List ℚ), 0 ≤ v ∧ v ≤ 255) ∧
    ((0 : ℚ) ≤ 1 ∧ (1 : ℚ) ≤ 1) ∧
    ∀ x ∈ normalizeSpectrum [255, 255, 255] 1, 0 ≤ x ∧ x ≤ 2 :=
  ⟨by norm_num, by norm_num,
    claim_C8_normalized_range [255, 255, 255] 1 (by norm_num) (by norm_num)
      (by norm_num)⟩

/-- C8 counterexample: for the all-255 frame, whose computed
low-frequency average is 1, the first normalized bin equals 2 — outside
[0, 1]. -/
theorem claim_C8_counterexample :
    lowFrequencyAverageOf [255, 255, 255] = 1 ∧
    (normalizeSpectrum [255, 255, 255] 1).getD 0 0 = 2 ∧
    ¬ ((2 : ℚ) ≤ 1) := by
  refine ⟨?_, ?_, by norm_num⟩
  · norm_num [lowFrequencyAverageOf]
  · norm_num [normalizeSpectrum, List.enum, List.enumFrom, List.getD]

/-- C4: `resetBPMDetection` restores exactly the initial state, so the
next tick is identical to a fresh instance's first tick: equal outputs,
no onset detected, published bpm 120, and beat intensity 0 (the
intensity requires `150 ≤ now`, which every realistic epoch-milliseconds
clock value satisfies; at smaller clock values even a fresh instance
reports a nonzero fade). -/
theorem claim_C4_reset_equals_fresh (f : List ℚ) (lfa now : ℚ)
    (h : 150 ≤ now) :
    resetBPMDetection = initState ∧
    detectBPM f lfa now resetBPMDetection = detectBPM f lfa now initState ∧
    (detectBPM f lfa now initState).bpm = 120 ∧
    (detectBPM f lfa now initState).beatIntensity = 0 ∧
    (detectBPM f lfa now initState).state.onsetHistory = [] := by
  have ho : detectOnsets (normalizeSpectrum f lfa) now initState =
      ⟨0, ⟨[], 0, [], 0, [], some (normalizeSpectrum f lfa), []⟩⟩ := by
    simp [detectOnsets, initState]
  have hpost : postOnsetState f lfa now initState =
      ⟨[], 0, [], 0, [], some (normalizeSpectrum f lfa), []⟩ := by
    simp only [postOnsetState, ho, onsetGateThreshold]
    rw [if_neg]
    split_ifs <;> norm_num
  have ha : analyzeIOIHistogram
      (⟨[], 0, [], 0, [], some (normalizeSpectrum f lfa), []⟩ : BPMState) =
      [120] := by
    norm_num [analyzeIOIHistogram]
  have hb : autocorrelationAnalysis [120]
      (⟨[], 0, [], 0, [], some (normalizeSpectrum f lfa), []⟩ : BPMState) =
      ⟨120, ⟨[], 0, [], 0, [], some (normalizeSpectrum f lfa), []⟩⟩ := by
    norm_num [autocorrelationAnalysis, buildCounts, stableSort, stableInsert]
  have hc : calculateBeatIntensity 0 120 now
      (⟨[], 0, [], 0, [], some (normalizeSpectrum f lfa), []⟩ : BPMState) =
      ⟨0, ⟨[], 0, [], 0, [], some (normalizeSpectrum f lfa), []⟩⟩ := by
    simp only [calculateBeatIntensity]
    rw [if_neg (by norm_num : ¬ (0 : ℚ) > 1/10), if_neg]
    norm_num
    linarith
  refine ⟨rfl, rfl, ?_, ?_, ?_⟩
  · rw [detectBPM_bpm_eq, hpost, ha, hb]
  · rw [detectBPM_intensity_eq, hpost, ha, hb, ho]
    simp only [hc]
    split_ifs <;> norm_num
  · rw [detectBPM_onsetHistory, ho]

theorem claim_C4_witness :
    (150 : ℚ) ≤ 1000 ∧
    (resetBPMDetection = initState ∧
      detectBPM [] 0 1000 resetBPMDetection = detectBPM [] 0 1000 initState ∧
      (detectBPM [] 0 1000 initState).bpm = 120 ∧
      (detectBPM [] 0 1000 initState).beatIntensity = 0 ∧
      (detectBPM [] 0 1000 initState).state.onsetHistory = []) :=
  ⟨by norm_num, claim_C4_reset_equals_fresh [] 0 1000 (by norm_num)⟩

/-- C6: for every tick of a reachable detector run (the stored beat time
cannot lie in the future), a low-frequency average in [0, 1] gives a
published beat intensity in [0, 1], on the detection path and on the
override path alike. -/
theorem claim_C6_intensity_in_range {s : BPMState} (hs : Reachable s)
    (f : List ℚ) (lfa now : ℚ) (h0 : 0 ≤ lfa) (h1 : lfa ≤ 1)
    (hlb : s.lastBeatTime ≤ now) :
    (0 ≤ (detectBPM f lfa now s).beatIntensity ∧
      (detectBPM f lfa now s).beatIntensity ≤ 1) ∧
    (0 ≤ calculateSimpleBeatIntensity f lfa ∧
      calculateSimpleBeatIntensity f lfa ≤ 1) := by
  have hinv := reachable_inv hs
  constructor
  · have hbpm := (autocorrelationAnalysis_core (postOnsetState f lfa now s)
      (by rw [postOnsetState_bpmHistory]; exact hinv.1)).1.1
    have hlb2 : (autocorrelationAnalysis
        (analyzeIOIHistogram (postOnsetState f lfa now s))
        (postOnsetState f lfa now s)).state.lastBeatTime ≤ now := by
      rw [(autocorrelationAnalysis_preserves _ _).2.2.1,
        postOnsetState_lastBeatTime]
      exact hlb
    have hint := calculateBeatIntensity_range
      ((detectOnsets (normalizeSpectrum f lfa) now s).onsetStrength)
      ((autocorrelationAnalysis (analyzeIOIHistogram (postOnsetState f lfa now s))
        (postOnsetState f lfa now s)).bpm)
      now
      ((autocorrelationAnalysis (analyzeIOIHistogram (postOnsetState f lfa now s))
        (postOnsetState f lfa now s)).state)
      hbpm hlb2
    rw [detectBPM_intensity_eq]
    split_ifs
    · exact ⟨le_min (by nlinarith [hint.1]) zero_le_one, min_le_right _ _⟩
    · exact hint
  · simp only [calculateSimpleBeatIntensity]
    have hb0 : 0 ≤ min (lfa * (5/2)) 1 := le_min (by linarith) zero_le_one
    have hb1 : min (lfa * (5/2)) 1 ≤ 1 := min_le_right _ _
    split_ifs
    · exact ⟨le_min (by nlinarith) zero_le_one, min_le_right _ _⟩
    · exact ⟨hb0, hb1⟩

theorem claim_C6_witness :
    ((0 : ℚ) ≤ 0 ∧ (0 : ℚ) ≤ 1 ∧ initState.lastBeatTime ≤ 0) ∧
    ((0 ≤ (detectBPM [] 0 0 initState).beatIntensity ∧
        (detectBPM [] 0 0 initState).beatIntensity ≤ 1) ∧
      (0 ≤ calculateSimpleBeatIntensity [] 0 ∧
        calculateSimpleBeatIntensity [] 0 ≤ 1)) :=
  ⟨⟨le_refl 0, by norm_num, by norm_num [initState]⟩,
    claim_C6_intensity_in_range Reachable.init [] 0 0 (le_refl 0)
      (by norm_num) (by norm_num [initState])⟩

/-- C3 (amended): the onset history is pruned only on ticks that emit an
onset: after every tick, either all stored timestamps satisfy
`now - t < 15000`, or the onset history is left exactly unchanged.  A
lone onset followed by silence therefore never expires (see the
counterexample). -/
theorem claim_C3_prune_only_on_onset (f : List ℚ) (lfa now : ℚ)
    (s : BPMState) :
    (∀ t ∈ (detectBPM f lfa now s).state.onsetHistory, now - t < 15000) ∨
    (detectBPM f lfa now s).state.onsetHistory = s.onsetHistory := by
  rw [detectBPM_onsetHistory]
  cases hps : s.previousSpectrum with
  | none => right; simp [detectOnsets, hps]
  | some prev =>
    simp only [detectOnsets, hps]
    split
    · split
      · left
        intro t ht
        exact of_decide_eq_true (List.mem_filter.mp ht).2
      · right; rfl
    · split
      · left
        intro t ht
        exact of_decide_eq_true (List.mem_filter.mp ht).2
      · right; rfl

/-- C5 (amended): the IOI histogram is updated only when the emitted
onset's strength exceeds the gate threshold (0.08 for bass-heavy frames
with lowFrequencyAverage > 0.5, else 0.1) and at least two onsets remain
in the pruned history; the update increments the nearest 10 ms bucket
for every prior onset within [300, 2000] ms of the new one and then
decays every bucket by 0.95, deleting weights below 0.1.  An onset
emitted with strength at or below the threshold leaves the histogram
exactly unchanged (see the counterexample). -/
theorem claim_C5_gated_histogram_update (f : List ℚ) (lfa now : ℚ)
    (s : BPMState) :
    (detectBPM f lfa now s).state.ioiHistogram =
      if (detectOnsets (normalizeSpectrum f lfa) now s).onsetStrength >
            onsetGateThreshold lfa ∧
          2 ≤ (detectOnsets (normalizeSpectrum f lfa) now
            s).state.onsetHistory.length then
        specIOIDecay (specIOIIncrement
          (specIOIIntervals
            (detectOnsets (normalizeSpectrum f lfa) now s).state.onsetHistory)
          s.ioiHistogram)
      else s.ioiHistogram := by
  rw [detectBPM_ioiHistogram]
  simp only [postOnsetState]
  have hio := (detectOnsets_preserves (normalizeSpectrum f lfa) now s).2.2
  by_cases hg : (detectOnsets (normalizeSpectrum f lfa) now s).onsetStrength >
      onsetGateThreshold lfa
  · rw [if_pos hg, updateIOIHistogram_eq_spec, hio]
    by_cases h2 : 2 ≤ (detectOnsets (normalizeSpectrum f lfa) now
        s).state.onsetHistory.length
    · rw [if_pos h2, if_pos ⟨hg, h2⟩]
    · rw [if_neg h2, if_neg (by tauto)]
  · rw [if_neg hg, if_neg (by tauto), hio]

/-! ### Concrete runs for the C3 and C5 counterexamples

Each lemma below evaluates one `detectBPM` tick on concrete inputs; the
intermediate `have`s evaluate the individual stages. -/

set_option maxHeartbeats 1000000


lemma tickC3_t1 : detectBPM [0] 0 0
    ⟨[], 0, [], 0, [], none, []⟩ =
    ⟨120, 1, ⟨[], 0, [], 0, [], some [0], []⟩⟩ := by
  have hn : normalizeSpectrum [0] 0 = [0] := by
    norm_num [normalizeSpectrum, List.enum, List.enumFrom]
  have ho : detectOnsets [0] 0
      ⟨[], 0, [], 0, [], none, []⟩ =
      ⟨0, ⟨[], 0, [], 0, [], some [0], []⟩⟩ := by
    norm_num [detectOnsets, spectralFlux, fluxWeight, fluxMedian, adaptiveThreshold,
      minOnsetSpacing, onsetStrengthOf, stableSort, stableInsert,
      List.enum, List.enumFrom, List.getLast?]
  have ha : analyzeIOIHistogram ⟨[], 0, [], 0, [], some [0], []⟩ = [120] := by
    norm_num [analyzeIOIHistogram, stableSort, stableInsert, jsDedup, jsDedupAux, round_eq]
  have hb : autocorrelationAnalysis [120]
      ⟨[], 0, [], 0, [], some [0], []⟩ =
      ⟨120, ⟨[], 0, [], 0, [], some [0], []⟩⟩ := by
    norm_num [autocorrelationAnalysis, buildCounts, stableSort, stableInsert]
  have hc : calculateBeatIntensity 0 120 0
      ⟨[], 0, [], 0, [], some [0], []⟩ =
      ⟨1, ⟨[], 0, [], 0, [], some [0], []⟩⟩ := by
    norm_num [calculateBeatIntensity]
  norm_num [detectBPM, postOnsetState, onsetGateThreshold, hn, ho, ha, hb, hc]

lemma tickC3_t2 : detectBPM [0] 0 1000
    ⟨[], 0, [], 0, [], some [0], []⟩ =
    ⟨120, 0, ⟨[], 0, [], 0, [0], some [0], []⟩⟩ := by
  have hn : normalizeSpectrum [0] 0 = [0] := by
    norm_num [normalizeSpectrum, List.enum, List.enumFrom]
  have ho : detectOnsets [0] 1000
      ⟨[], 0, [], 0, [], some [0], []⟩ =
      ⟨0, ⟨[], 0, [], 0, [0], some [0], []⟩⟩ := by
    norm_num [detectOnsets, spectralFlux, fluxWeight, fluxMedian, adaptiveThreshold,
      minOnsetSpacing, onsetStrengthOf, stableSort, stableInsert,
      List.enum, List.enumFrom, List.getLast?]
  have ha : analyzeIOIHistogram ⟨[], 0, [], 0, [0], some [0], []⟩ = [120] := by
    norm_num [analyzeIOIHistogram, stableSort, stableInsert, jsDedup, jsDedupAux, round_eq]
  have hb : autocorrelationAnalysis [120]
      ⟨[], 0, [], 0, [0], some [0], []⟩ =
      ⟨120, ⟨[], 0, [], 0, [0], some [0], []⟩⟩ := by
    norm_num [autocorrelationAnalysis, buildCounts, stableSort, stableInsert]
  have hc : calculateBeatIntensity 0 120 1000
      ⟨[], 0, [], 0, [0], some [0], []⟩ =
      ⟨0, ⟨[], 0, [], 0, [0], some [0], []⟩⟩ := by
    norm_num [calculateBeatIntensity]
  norm_num [detectBPM, postOnsetState, onsetGateThreshold, hn, ho, ha, hb, hc]

lemma tickC3_t3 : detectBPM [0] 0 2000
    ⟨[], 0, [], 0, [0], some [0], []⟩ =
    ⟨120, 0, ⟨[], 0, [], 0, [0, 0], some [0], []⟩⟩ := by
  have hn : normalizeSpectrum [0] 0 = [0] := by
    norm_num [normalizeSpectrum, List.enum, List.enumFrom]
  have ho : detectOnsets [0] 2000
      ⟨[], 0, [], 0, [0], some [0], []⟩ =
      ⟨0, ⟨[], 0, [], 0, [0, 0], some [0], []⟩⟩ := by
    norm_num [detectOnsets, spectralFlux, fluxWeight, fluxMedian, adaptiveThreshold,
      minOnsetSpacing, onsetStrengthOf, stableSort, stableInsert,
      List.enum, List.enumFrom, List.getLast?]
  have ha : analyzeIOIHistogram ⟨[], 0, [], 0, [0, 0], some [0], []⟩ = [120] := by
    norm_num [analyzeIOIHistogram, stableSort, stableInsert, jsDedup, jsDedupAux, round_eq]
  have hb : autocorrelationAnalysis [120]
      ⟨[], 0, [], 0, [0, 0], some [0], []⟩ =
      ⟨120, ⟨[], 0, [], 0, [0, 0], some [0], []⟩⟩ := by
    norm_num [autocorrelationAnalysis, buildCounts, stableSort, stableInsert]
  have hc : calculateBeatIntensity 0 120 2000
      ⟨[], 0, [], 0, [0, 0], some [0], []⟩ =
      ⟨0, ⟨[], 0, [], 0, [0, 0], some [0], []⟩⟩ := by
    norm_num [calculateBeatIntensity]
  norm_num [detectBPM, postOnsetState, onsetGateThreshold, hn, ho, ha, hb, hc]

lemma tickC3_t4 : detectBPM [255] 0 3000
    ⟨[], 0, [], 0, [0, 0], some [0], []⟩ =
    ⟨120, 1, ⟨[3000], 3000, [], 3000, [0, 0, 1], some [1], []⟩⟩ := by
  have hn : normalizeSpectrum [255] 0 = [1] := by
    norm_num [normalizeSpectrum, List.enum, List.enumFrom]
  have ho : detectOnsets [1] 3000
      ⟨[], 0, [], 0, [0, 0], some [0], []⟩ =
      ⟨1, ⟨[3000], 3000, [], 0, [0, 0, 1], some [1], []⟩⟩ := by
    norm_num [detectOnsets, spectralFlux, fluxWeight, fluxMedian, adaptiveThreshold,
      minOnsetSpacing, onsetStrengthOf, stableSort, stableInsert,
      List.enum, List.enumFrom, List.getLast?]
  have hu : updateIOIHistogram ⟨[3000], 3000, [], 0, [0, 0, 1], some [1], []⟩ =
      ⟨[3000], 3000, [], 0, [0, 0, 1], some [1], []⟩ := by
    norm_num [updateIOIHistogram, mapSet, mapGetD, round_eq, List.getLastD, List.getLast?,
      List.filterMap_cons]
  have ha : analyzeIOIHistogram ⟨[3000], 3000, [], 0, [0, 0, 1], some [1], []⟩ = [120] := by
    norm_num [analyzeIOIHistogram, stableSort, stableInsert, jsDedup, jsDedupAux, round_eq]
  have hb : autocorrelationAnalysis [120]
      ⟨[3000], 3000, [], 0, [0, 0, 1], some [1], []⟩ =
      ⟨120, ⟨[3000], 3000, [], 0, [0, 0, 1], some [1], []⟩⟩ := by
    norm_num [autocorrelationAnalysis, buildCounts, stableSort, stableInsert]
  have hc : calculateBeatIntensity 1 120 3000
      ⟨[3000], 3000, [], 0, [0, 0, 1], some [1], []⟩ =
      ⟨1, ⟨[3000], 3000, [], 3000, [0, 0, 1], some [1], []⟩⟩ := by
    norm_num [calculateBeatIntensity]
  norm_num [detectBPM, postOnsetState, onsetGateThreshold, hn, ho, hu, ha, hb, hc]

lemma tickC3_t5 : detectBPM [255] 0 18500
    ⟨[3000], 3000, [], 3000, [0, 0, 1], some [1], []⟩ =
    ⟨120, 0, ⟨[3000], 3000, [], 3000, [0, 0, 1, 0], some [1], []⟩⟩ := by
  have hn : normalizeSpectrum [255] 0 = [1] := by
    norm_num [normalizeSpectrum, List.enum, List.enumFrom]
  have ho : detectOnsets [1] 18500
      ⟨[3000], 3000, [], 3000, [0, 0, 1], some [1], []⟩ =
      ⟨0, ⟨[3000], 3000, [], 3000, [0, 0, 1, 0], some [1], []⟩⟩ := by
    norm_num [detectOnsets, spectralFlux, fluxWeight, fluxMedian, adaptiveThreshold,
      minOnsetSpacing, onsetStrengthOf, stableSort, stableInsert,
      List.enum, List.enumFrom, List.getLast?]
  have ha : analyzeIOIHistogram ⟨[3000], 3000, [], 3000, [0, 0, 1, 0], some [1], []⟩ = [120] := by
    norm_num [analyzeIOIHistogram, stableSort, stableInsert, jsDedup, jsDedupAux, round_eq]
  have hb : autocorrelationAnalysis [120]
      ⟨[3000], 3000, [], 3000, [0, 0, 1, 0], some [1], []⟩ =
      ⟨120, ⟨[3000], 3000, [], 3000, [0, 0, 1, 0], some [1], []⟩⟩ := by
    norm_num [autocorrelationAnalysis, buildCounts, stableSort, stableInsert]
  have hc : calculateBeatIntensity 0 120 18500
      ⟨[3000], 3000, [], 3000, [0, 0, 1, 0], some [1], []⟩ =
      ⟨0, ⟨[3000], 3000, [], 3000, [0, 0, 1, 0], some [1], []⟩⟩ := by
    norm_num [calculateBeatIntensity]
  norm_num [detectBPM, postOnsetState, onsetGateThreshold, hn, ho, ha, hb, hc]


lemma tickC5_t1 : detectBPM [0] 0 0
    ⟨[], 0, [], 0, [], none, []⟩ =
    ⟨120, 1, ⟨[], 0, [], 0, [], some [0], []⟩⟩ := by
  have hn : normalizeSpectrum [0] 0 = [0] := by
    norm_num [normalizeSpectrum, List.enum, List.enumFrom]
  have ho : detectOnsets [0] 0
      ⟨[], 0, [], 0, [], none, []⟩ =
      ⟨0, ⟨[], 0, [], 0, [], some [0], []⟩⟩ := by
    norm_num [detectOnsets, spectralFlux, fluxWeight, fluxMedian, adaptiveThreshold,
      minOnsetSpacing, onsetStrengthOf, stableSort, stableInsert,
      List.enum, List.enumFrom, List.getLast?]
  have ha : analyzeIOIHistogram ⟨[], 0, [], 0, [], some [0], []⟩ = [120] := by
    norm_num [analyzeIOIHistogram, stableSort, stableInsert, jsDedup, jsDedupAux, round_eq]
  have hb : autocorrelationAnalysis [120]
      ⟨[], 0, [], 0, [], some [0], []⟩ =
      ⟨120, ⟨[], 0, [], 0, [], some [0], []⟩⟩ := by
    norm_num [autocorrelationAnalysis, buildCounts, stableSort, stableInsert]
  have hc : calculateBeatIntensity 0 120 0
      ⟨[], 0, [], 0, [], some [0], []⟩ =
      ⟨1, ⟨[], 0, [], 0, [], some [0], []⟩⟩ := by
    norm_num [calculateBeatIntensity]
  norm_num [detectBPM, postOnsetState, onsetGateThreshold, hn, ho, ha, hb, hc]

lemma tickC5_t2 : detectBPM [0] 0 500
    ⟨[], 0, [], 0, [], some [0], []⟩ =
    ⟨120, 0, ⟨[], 0, [], 0, [0], some [0], []⟩⟩ := by
  have hn : normalizeSpectrum [0] 0 = [0] := by
    norm_num [normalizeSpectrum, List.enum, List.enumFrom]
  have ho : detectOnsets [0] 500
      ⟨[], 0, [], 0, [], some [0], []⟩ =
      ⟨0, ⟨[], 0, [], 0, [0], some [0], []⟩⟩ := by
    norm_num [detectOnsets, spectralFlux, fluxWeight, fluxMedian, adaptiveThreshold,
      minOnsetSpacing, onsetStrengthOf, stableSort, stableInsert,
      List.enum, List.enumFrom, List.getLast?]
  have ha : analyzeIOIHistogram ⟨[], 0, [], 0, [0], some [0], []⟩ = [120] := by
    norm_num [analyzeIOIHistogram, stableSort, stableInsert, jsDedup, jsDedupAux, round_eq]
  have hb : autocorrelationAnalysis [120]
      ⟨[], 0, [], 0, [0], some [0], []⟩ =
      ⟨120, ⟨[], 0, [], 0, [0], some [0], []⟩⟩ := by
    norm_num [autocorrelationAnalysis, buildCounts, stableSort, stableInsert]
  have hc : calculateBeatIntensity 0 120 500
      ⟨[], 0, [], 0, [0], some [0], []⟩ =
      ⟨0, ⟨[], 0, [], 0, [0], some [0], []⟩⟩ := by
    norm_num [calculateBeatIntensity]
  norm_num [detectBPM, postOnsetState, onsetGateThreshold, hn, ho, ha, hb, hc]

lemma tickC5_t3 : detectBPM [0] 0 1000
    ⟨[], 0, [], 0, [0], some [0], []⟩ =
    ⟨120, 0, ⟨[], 0, [], 0, [0, 0], some [0], []⟩⟩ := by
  have hn : normalizeSpectrum [0] 0 = [0] := by
    norm_num [normalizeSpectrum, List.enum, List.enumFrom]
  have ho : detectOnsets [0] 1000
      ⟨[], 0, [], 0, [0], some [0], []⟩ =
      ⟨0, ⟨[], 0, [], 0, [0, 0], some [0], []⟩⟩ := by
    norm_num [detectOnsets, spectralFlux, fluxWeight, fluxMedian, adaptiveThreshold,
      minOnsetSpacing, onsetStrengthOf, stableSort, stableInsert,
      List.enum, List.enumFrom, List.getLast?]
  have ha : analyzeIOIHistogram ⟨[], 0, [], 0, [0, 0], some [0], []⟩ = [120] := by
    norm_num [analyzeIOIHistogram, stableSort, stableInsert, jsDedup, jsDedupAux, round_eq]
  have hb : autocorrelationAnalysis [120]
      ⟨[], 0, [], 0, [0, 0], some [0], []⟩ =
      ⟨120, ⟨[], 0, [], 0, [0, 0], some [0], []⟩⟩ := by
    norm_num [autocorrelationAnalysis, buildCounts, stableSort, stableInsert]
  have hc : calculateBeatIntensity 0 120 1000
      ⟨[], 0, [], 0, [0, 0], some [0], []⟩ =
      ⟨0, ⟨[], 0, [], 0, [0, 0], some [0], []⟩⟩ := by
    norm_num [calculateBeatIntensity]
  norm_num [detectBPM, postOnsetState, onsetGateThreshold, hn, ho, ha, hb, hc]

lemma tickC5_t4 : detectBPM [255] 0 1500
    ⟨[], 0, [], 0, [0, 0], some [0], []⟩ =
    ⟨120, 1, ⟨[1500], 1500, [], 1500, [0, 0, 1], some [1], []⟩⟩ := by
  have hn : normalizeSpectrum [255] 0 = [1] := by
    norm_num [normalizeSpectrum, List.enum, List.enumFrom]
  have ho : detectOnsets [1] 1500
      ⟨[], 0, [], 0, [0, 0], some [0], []⟩ =
      ⟨1, ⟨[1500], 1500, [], 0, [0, 0, 1], some [1], []⟩⟩ := by
    norm_num [detectOnsets, spectralFlux, fluxWeight, fluxMedian, adaptiveThreshold,
      minOnsetSpacing, onsetStrengthOf, stableSort, stableInsert,
      List.enum, List.enumFrom, List.getLast?]
  have hu : updateIOIHistogram ⟨[1500], 1500, [], 0, [0, 0, 1], some [1], []⟩ =
      ⟨[1500], 1500, [], 0, [0, 0, 1], some [1], []⟩ := by
    norm_num [updateIOIHistogram, mapSet, mapGetD, round_eq, List.getLastD, List.getLast?,
      List.filterMap_cons]
  have ha : analyzeIOIHistogram ⟨[1500], 1500, [], 0, [0, 0, 1], some [1], []⟩ = [120] := by
    norm_num [analyzeIOIHistogram, stableSort, stableInsert, jsDedup, jsDedupAux, round_eq]
  have hb : autocorrelationAnalysis [120]
      ⟨[1500], 1500, [], 0, [0, 0, 1], some [1], []⟩ =
      ⟨120, ⟨[1500], 1500, [], 0, [0, 0, 1], some [1], []⟩⟩ := by
    norm_num [autocorrelationAnalysis, buildCounts, stableSort, stableInsert]
  have hc : calculateBeatIntensity 1 120 1500
      ⟨[1500], 1500, [], 0, [0, 0, 1], some [1], []⟩ =
      ⟨1, ⟨[1500], 1500, [], 1500, [0, 0, 1], some [1], []⟩⟩ := by
    norm_num [calculateBeatIntensity]
  norm_num [detectBPM, postOnsetState, onsetGateThreshold, hn, ho, hu, ha, hb, hc]

lemma tickC5_t5 : detectBPM [0] 0 2000
    ⟨[1500], 1500, [], 1500, [0, 0, 1], some [1], []⟩ =
    ⟨120, 0, ⟨[1500], 1500, [], 1500, [0, 0, 1, 0], some [0], []⟩⟩ := by
  have hn : normalizeSpectrum [0] 0 = [0] := by
    norm_num [normalizeSpectrum, List.enum, List.enumFrom]
  have ho : detectOnsets [0] 2000
      ⟨[1500], 1500, [], 1500, [0, 0, 1], some [1], []⟩ =
      ⟨0, ⟨[1500], 1500, [], 1500, [0, 0, 1, 0], some [0], []⟩⟩ := by
    norm_num [detectOnsets, spectralFlux, fluxWeight, fluxMedian, adaptiveThreshold,
      minOnsetSpacing, onsetStrengthOf, stableSort, stableInsert,
      List.enum, List.enumFrom, List.getLast?]
  have ha : analyzeIOIHistogram ⟨[1500], 1500, [], 1500, [0, 0, 1, 0], some [0], []⟩ = [120] := by
    norm_num [analyzeIOIHistogram, stableSort, stableInsert, jsDedup, jsDedupAux, round_eq]
  have hb : autocorrelationAnalysis [120]
      ⟨[1500], 1500, [], 1500, [0, 0, 1, 0], some [0], []⟩ =
      ⟨120, ⟨[1500], 1500, [], 1500, [0, 0, 1, 0], some [0], []⟩⟩ := by
    norm_num [autocorrelationAnalysis, buildCounts, stableSort, stableInsert]
  have hc : calculateBeatIntensity 0 120 2000
      ⟨[1500], 1500, [], 1500, [0, 0, 1, 0], some [0], []⟩ =
      ⟨0, ⟨[1500], 1500, [], 1500, [0, 0, 1, 0], some [0], []⟩⟩ := by
    norm_num [calculateBeatIntensity]
  norm_num [detectBPM, postOnsetState, onsetGateThreshold, hn, ho, ha, hb, hc]

lemma tickC5_t6 : detectBPM [255] 0 2500
    ⟨[1500], 1500, [], 1500, [0, 0, 1, 0], some [0], []⟩ =
    ⟨120, 1, ⟨[1500, 2500], 2500, [], 2500, [0, 0, 1, 0, 1], some [1], [(1000, (19/20))]⟩⟩ := by
  have hn : normalizeSpectrum [255] 0 = [1] := by
    norm_num [normalizeSpectrum, List.enum, List.enumFrom]
  have ho : detectOnsets [1] 2500
      ⟨[1500], 1500, [], 1500, [0, 0, 1, 0], some [0], []⟩ =
      ⟨1, ⟨[1500, 2500], 2500, [], 1500, [0, 0, 1, 0, 1], some [1], []⟩⟩ := by
    norm_num [detectOnsets, spectralFlux, fluxWeight, fluxMedian, adaptiveThreshold,
      minOnsetSpacing, onsetStrengthOf, stableSort, stableInsert,
      List.enum, List.enumFrom, List.getLast?]
  have hu : updateIOIHistogram ⟨[1500, 2500], 2500, [], 1500, [0, 0, 1, 0, 1], some [1], []⟩ =
      ⟨[1500, 2500], 2500, [], 1500, [0, 0, 1, 0, 1], some [1], [(1000, (19/20))]⟩ := by
    norm_num [updateIOIHistogram, mapSet, mapGetD, round_eq, List.getLastD, List.getLast?,
      List.filterMap_cons]
  have ha : analyzeIOIHistogram ⟨[1500, 2500], 2500, [], 1500, [0, 0, 1, 0, 1], some [1], [(1000, (19/20))]⟩ = [120] := by
    norm_num [analyzeIOIHistogram, stableSort, stableInsert, jsDedup, jsDedupAux, round_eq]
  have hb : autocorrelationAnalysis [120]
      ⟨[1500, 2500], 2500, [], 1500, [0, 0, 1, 0, 1], some [1], [(1000, (19/20))]⟩ =
      ⟨120, ⟨[1500, 2500], 2500, [], 1500, [0, 0, 1, 0, 1], some [1], [(1000, (19/20))]⟩⟩ := by
    norm_num [autocorrelationAnalysis, buildCounts, stableSort, stableInsert]
  have hc : calculateBeatIntensity 1 120 2500
      ⟨[1500, 2500], 2500, [], 1500, [0, 0, 1, 0, 1], some [1], [(1000, (19/20))]⟩ =
      ⟨1, ⟨[1500, 2500], 2500, [], 2500, [0, 0, 1, 0, 1], some [1], [(1000, (19/20))]⟩⟩ := by
    norm_num [calculateBeatIntensity]
  norm_num [detectBPM, postOnsetState, onsetGateThreshold, hn, ho, hu, ha, hb, hc]

lemma tickC5_t7 : detectBPM [0] 0 3000
    ⟨[1500, 2500], 2500, [], 2500, [0, 0, 1, 0, 1], some [1], [(1000, (19/20))]⟩ =
    ⟨120, 0, ⟨[1500, 2500], 2500, [], 2500, [0, 0, 1, 0, 1, 0], some [0], [(1000, (19/20))]⟩⟩ := by
  have hn : normalizeSpectrum [0] 0 = [0] := by
    norm_num [normalizeSpectrum, List.enum, List.enumFrom]
  have ho : detectOnsets [0] 3000
      ⟨[1500, 2500], 2500, [], 2500, [0, 0, 1, 0, 1], some [1], [(1000, (19/20))]⟩ =
      ⟨0, ⟨[1500, 2500], 2500, [], 2500, [0, 0, 1, 0, 1, 0], some [0], [(1000, (19/20))]⟩⟩ := by
    norm_num [detectOnsets, spectralFlux, fluxWeight, fluxMedian, adaptiveThreshold,
      minOnsetSpacing, onsetStrengthOf, stableSort, stableInsert,
      List.enum, List.enumFrom, List.getLast?]
  have ha : analyzeIOIHistogram ⟨[1500, 2500], 2500, [], 2500, [0, 0, 1, 0, 1, 0], some [0], [(1000, (19/20))]⟩ = [120] := by
    norm_num [analyzeIOIHistogram, stableSort, stableInsert, jsDedup, jsDedupAux, round_eq]
  have hb : autocorrelationAnalysis [120]
      ⟨[1500, 2500], 2500, [], 2500, [0, 0, 1, 0, 1, 0], some [0], [(1000, (19/20))]⟩ =
      ⟨120, ⟨[1500, 2500], 2500, [], 2500, [0, 0, 1, 0, 1, 0], some [0], [(1000, (19/20))]⟩⟩ := by
    norm_num [autocorrelationAnalysis, buildCounts, stableSort, stableInsert]
  have hc : calculateBeatIntensity 0 120 3000
      ⟨[1500, 2500], 2500, [], 2500, [0, 0, 1, 0, 1, 0], some [0], [(1000, (19/20))]⟩ =
      ⟨0, ⟨[1500, 2500], 2500, [], 2500, [0, 0, 1, 0, 1, 0], some [0], [(1000, (19/20))]⟩⟩ := by
    norm_num [calculateBeatIntensity]
  norm_num [detectBPM, postOnsetState, onsetGateThreshold, hn, ho, ha, hb, hc]

lemma tickC5_t8 : detectBPM [128] 0 3500
    ⟨[1500, 2500], 2500, [], 2500, [0, 0, 1, 0, 1, 0], some [0], [(1000, (19/20))]⟩ =
    ⟨60, 1, ⟨[1500, 2500, 3500], 3500, [], 3500, [0, 0, 1, 0, 1, 0, (128/255)], some [(128/255)], [(1000, (741/400)), (2000, (19/20))]⟩⟩ := by
  have hn : normalizeSpectrum [128] 0 = [(128/255)] := by
    norm_num [normalizeSpectrum, List.enum, List.enumFrom]
  have ho : detectOnsets [(128/255)] 3500
      ⟨[1500, 2500], 2500, [], 2500, [0, 0, 1, 0, 1, 0], some [0], [(1000, (19/20))]⟩ =
      ⟨1, ⟨[1500, 2500, 3500], 3500, [], 2500, [0, 0, 1, 0, 1, 0, (128/255)], some [(128/255)], [(1000, (19/20))]⟩⟩ := by
    norm_num [detectOnsets, spectralFlux, fluxWeight, fluxMedian, adaptiveThreshold,
      minOnsetSpacing, onsetStrengthOf, stableSort, stableInsert,
      List.enum, List.enumFrom, List.getLast?]
  have hu : updateIOIHistogram ⟨[1500, 2500, 3500], 3500, [], 2500, [0, 0, 1, 0, 1, 0, (128/255)], some [(128/255)], [(1000, (19/20))]⟩ =
      ⟨[1500, 2500, 3500], 3500, [], 2500, [0, 0, 1, 0, 1, 0, (128/255)], some [(128/255)], [(1000, (741/400)), (2000, (19/20))]⟩ := by
    norm_num [updateIOIHistogram, mapSet, mapGetD, round_eq, List.getLastD, List.getLast?,
      List.filterMap_cons]
  have ha : analyzeIOIHistogram ⟨[1500, 2500, 3500], 3500, [], 2500, [0, 0, 1, 0, 1, 0, (128/255)], some [(128/255)], [(1000, (741/400)), (2000, (19/20))]⟩ = [60, 80, 90, 120] := by
    norm_num [analyzeIOIHistogram, stableSort, stableInsert, jsDedup, jsDedupAux, round_eq]
  have hb : autocorrelationAnalysis [60, 80, 90, 120]
      ⟨[1500, 2500, 3500], 3500, [], 2500, [0, 0, 1, 0, 1, 0, (128/255)], some [(128/255)], [(1000, (741/400)), (2000, (19/20))]⟩ =
      ⟨60, ⟨[1500, 2500, 3500], 3500, [], 2500, [0, 0, 1, 0, 1, 0, (128/255)], some [(128/255)], [(1000, (741/400)), (2000, (19/20))]⟩⟩ := by
    norm_num [autocorrelationAnalysis, buildCounts, stableSort, stableInsert]
  have hc : calculateBeatIntensity 1 60 3500
      ⟨[1500, 2500, 3500], 3500, [], 2500, [0, 0, 1, 0, 1, 0, (128/255)], some [(128/255)], [(1000, (741/400)), (2000, (19/20))]⟩ =
      ⟨1, ⟨[1500, 2500, 3500], 3500, [], 3500, [0, 0, 1, 0, 1, 0, (128/255)], some [(128/255)], [(1000, (741/400)), (2000, (19/20))]⟩⟩ := by
    norm_num [calculateBeatIntensity]
  norm_num [detectBPM, postOnsetState, onsetGateThreshold, hn, ho, hu, ha, hb, hc]

lemma tickC5_t9 : detectBPM [255] 0 4000
    ⟨[1500, 2500, 3500], 3500, [], 3500, [0, 0, 1, 0, 1, 0, (128/255)], some [(128/255)], [(1000, (741/400)), (2000, (19/20))]⟩ =
    ⟨60, 0, ⟨[1500, 2500, 3500], 3500, [], 3500, [0, 0, 1, 0, 1, 0, (128/255), (127/255)], some [1], [(1000, (741/400)), (2000, (19/20))]⟩⟩ := by
  have hn : normalizeSpectrum [255] 0 = [1] := by
    norm_num [normalizeSpectrum, List.enum, List.enumFrom]
  have ho : detectOnsets [1] 4000
      ⟨[1500, 2500, 3500], 3500, [], 3500, [0, 0, 1, 0, 1, 0, (128/255)], some [(128/255)], [(1000, (741/400)), (2000, (19/20))]⟩ =
      ⟨0, ⟨[1500, 2500, 3500], 3500, [], 3500, [0, 0, 1, 0, 1, 0, (128/255), (127/255)], some [1], [(1000, (741/400)), (2000, (19/20))]⟩⟩ := by
    norm_num [detectOnsets, spectralFlux, fluxWeight, fluxMedian, adaptiveThreshold,
      minOnsetSpacing, onsetStrengthOf, stableSort, stableInsert,
      List.enum, List.enumFrom, List.getLast?]
  have ha : analyzeIOIHistogram ⟨[1500, 2500, 3500], 3500, [], 3500, [0, 0, 1, 0, 1, 0, (128/255), (127/255)], some [1], [(1000, (741/400)), (2000, (19/20))]⟩ = [60, 80, 90, 120] := by
    norm_num [analyzeIOIHistogram, stableSort, stableInsert, jsDedup, jsDedupAux, round_eq]
  have hb : autocorrelationAnalysis [60, 80, 90, 120]
      ⟨[1500, 2500, 3500], 3500, [], 3500, [0, 0, 1, 0, 1, 0, (128/255), (127/255)], some [1], [(1000, (741/400)), (2000, (19/20))]⟩ =
      ⟨60, ⟨[1500, 2500, 3500], 3500, [], 3500, [0, 0, 1, 0, 1, 0, (128/255), (127/255)], some [1], [(1000, (741/400)), (2000, (19/20))]⟩⟩ := by
    norm_num [autocorrelationAnalysis, buildCounts, stableSort, stableInsert]
  have hc : calculateBeatIntensity 0 60 4000
      ⟨[1500, 2500, 3500], 3500, [], 3500, [0, 0, 1, 0, 1, 0, (128/255), (127/255)], some [1], [(1000, (741/400)), (2000, (19/20))]⟩ =
      ⟨0, ⟨[1500, 2500, 3500], 3500, [], 3500, [0, 0, 1, 0, 1, 0, (128/255), (127/255)], some [1], [(1000, (741/400)), (2000, (19/20))]⟩⟩ := by
    norm_num [calculateBeatIntensity]
  norm_num [detectBPM, postOnsetState, onsetGateThreshold, hn, ho, ha, hb, hc]

lemma tickC5_t10 : detectBPM [0] 0 4500
    ⟨[1500, 2500, 3500], 3500, [], 3500, [0, 0, 1, 0, 1, 0, (128/255), (127/255)], some [1], [(1000, (741/400)), (2000, (19/20))]⟩ =
    ⟨60, 0, ⟨[1500, 2500, 3500], 3500, [], 3500, [0, 0, 1, 0, 1, 0, (128/255), (127/255), 0], some [0], [(1000, (741/400)), (2000, (19/20))]⟩⟩ := by
  have hn : normalizeSpectrum [0] 0 = [0] := by
    norm_num [normalizeSpectrum, List.enum, List.enumFrom]
  have ho : detectOnsets [0] 4500
      ⟨[1500, 2500, 3500], 3500, [], 3500, [0, 0, 1, 0, 1, 0, (128/255), (127/255)], some [1], [(1000, (741/400)), (2000, (19/20))]⟩ =
      ⟨0, ⟨[1500, 2500, 3500], 3500, [], 3500, [0, 0, 1, 0, 1, 0, (128/255), (127/255), 0], some [0], [(1000, (741/400)), (2000, (19/20))]⟩⟩ := by
    norm_num [detectOnsets, spectralFlux, fluxWeight, fluxMedian, adaptiveThreshold,
      minOnsetSpacing, onsetStrengthOf, stableSort, stableInsert,
      List.enum, List.enumFrom, List.getLast?]
  have ha : analyzeIOIHistogram ⟨[1500, 2500, 3500], 3500, [], 3500, [0, 0, 1, 0, 1, 0, (128/255), (127/255), 0], some [0], [(1000, (741/400)), (2000, (19/20))]⟩ = [60, 80, 90, 120] := by
    norm_num [analyzeIOIHistogram, stableSort, stableInsert, jsDedup, jsDedupAux, round_eq]
  have hb : autocorrelationAnalysis [60, 80, 90, 120]
      ⟨[1500, 2500, 3500], 3500, [], 3500, [0, 0, 1, 0, 1, 0, (128/255), (127/255), 0], some [0], [(1000, (741/400)), (2000, (19/20))]⟩ =
      ⟨60, ⟨[1500, 2500, 3500], 3500, [], 3500, [0, 0, 1, 0, 1, 0, (128/255), (127/255), 0], some [0], [(1000, (741/400)), (2000, (19/20))]⟩⟩ := by
    norm_num [autocorrelationAnalysis, buildCounts, stableSort, stableInsert]
  have hc : calculateBeatIntensity 0 60 4500
      ⟨[1500, 2500, 3500], 3500, [], 3500, [0, 0, 1, 0, 1, 0, (128/255), (127/255), 0], some [0], [(1000, (741/400)), (2000, (19/20))]⟩ =
      ⟨0, ⟨[1500, 2500, 3500], 3500, [], 3500, [0, 0, 1, 0, 1, 0, (128/255), (127/255), 0], some [0], [(1000, (741/400)), (2000, (19/20))]⟩⟩ := by
    norm_num [calculateBeatIntensity]
  norm_num [detectBPM, postOnsetState, onsetGateThreshold, hn, ho, ha, hb, hc]

lemma tickC5_t11 : detectBPM [160] 0 5000
    ⟨[1500, 2500, 3500], 3500, [], 3500, [0, 0, 1, 0, 1, 0, (128/255), (127/255), 0], some [0], [(1000, (741/400)), (2000, (19/20))]⟩ =
    ⟨60, 0, ⟨[1500, 2500, 3500, 5000], 5000, [], 3500, [0, 0, 1, 0, 1, 0, (128/255), (127/255), 0, (32/51)], some [(32/51)], [(1000, (741/400)), (2000, (19/20))]⟩⟩ := by
  have hn : normalizeSpectrum [160] 0 = [(32/51)] := by
    norm_num [normalizeSpectrum, List.enum, List.enumFrom]
  have ho : detectOnsets [(32/51)] 5000
      ⟨[1500, 2500, 3500], 3500, [], 3500, [0, 0, 1, 0, 1, 0, (128/255), (127/255), 0], some [0], [(1000, (741/400)), (2000, (19/20))]⟩ =
      ⟨(95/1524), ⟨[1500, 2500, 3500, 5000], 5000, [], 3500, [0, 0, 1, 0, 1, 0, (128/255), (127/255), 0, (32/51)], some [(32/51)], [(1000, (741/400)), (2000, (19/20))]⟩⟩ := by
    norm_num [detectOnsets, spectralFlux, fluxWeight, fluxMedian, adaptiveThreshold,
      minOnsetSpacing, onsetStrengthOf, stableSort, stableInsert,
      List.enum, List.enumFrom, List.getLast?]
  have ha : analyzeIOIHistogram ⟨[1500, 2500, 3500, 5000], 5000, [], 3500, [0, 0, 1, 0, 1, 0, (128/255), (127/255), 0, (32/51)], some [(32/51)], [(1000, (741/400)), (2000, (19/20))]⟩ = [60, 80, 90, 120] := by
    norm_num [analyzeIOIHistogram, stableSort, stableInsert, jsDedup, jsDedupAux, round_eq]
  have hb : autocorrelationAnalysis [60, 80, 90, 120]
      ⟨[1500, 2500, 3500, 5000], 5000, [], 3500, [0, 0, 1, 0, 1, 0, (128/255), (127/255), 0, (32/51)], some [(32/51)], [(1000, (741/400)), (2000, (19/20))]⟩ =
      ⟨60, ⟨[1500, 2500, 3500, 5000], 5000, [], 3500, [0, 0, 1, 0, 1, 0, (128/255), (127/255), 0, (32/51)], some [(32/51)], [(1000, (741/400)), (2000, (19/20))]⟩⟩ := by
    norm_num [autocorrelationAnalysis, buildCounts, stableSort, stableInsert]
  have hc : calculateBeatIntensity (95/1524) 60 5000
      ⟨[1500, 2500, 3500, 5000], 5000, [], 3500, [0, 0, 1, 0, 1, 0, (128/255), (127/255), 0, (32/51)], some [(32/51)], [(1000, (741/400)), (2000, (19/20))]⟩ =
      ⟨0, ⟨[1500, 2500, 3500, 5000], 5000, [], 3500, [0, 0, 1, 0, 1, 0, (128/255), (127/255), 0, (32/51)], some [(32/51)], [(1000, (741/400)), (2000, (19/20))]⟩⟩ := by
    norm_num [calculateBeatIntensity]
  norm_num [detectBPM, postOnsetState, onsetGateThreshold, hn, ho, ha, hb, hc]


/-- C3 counterexample: after the run `c3run` — one onset at 3000 ms
followed by a silent tick at 18500 ms — the onset history still contains
the 3000 ms entry, violating `now - t < 15000`: on an onset-free tick
nothing is pruned, so a lone onset followed by silence never expires. -/
theorem claim_C3_counterexample :
    3000 ∈ (runDetect c3run initState).onsetHistory ∧
    ¬ ((18500 : ℚ) - 3000 < 15000) := by
  have hrun : runDetect c3run initState =
      ⟨[3000], 3000, [], 3000, [0, 0, 1, 0], some [1], []⟩ := by
    simp only [runDetect, c3run, initState, List.foldl_cons, List.foldl_nil,
      tickC3_t1, tickC3_t2, tickC3_t3, tickC3_t4, tickC3_t5]
  rw [hrun]
  constructor
  · simp
  · norm_num

/-- C5 counterexample: at the 5000 ms tick following the run `c5run`, an
onset IS emitted — its strength is 95/1524 ∈ (0, 0.1] and 5000 is
appended to the onset history — and the prior onset at 3500 ms lies
1500 ms ∈ [300, 2000] back, yet the IOI histogram is left exactly
unchanged: the 1500 bucket is not incremented and the existing buckets
(1000 ↦ 741/400, 2000 ↦ 19/20) are not decayed, because the strength
does not exceed the 0.1 gate. -/
theorem claim_C5_counterexample :
    (runDetect c5run initState).ioiHistogram =
      [(1000, 741/400), (2000, 19/20)] ∧
    (runDetect c5run initState).onsetHistory = [1500, 2500, 3500] ∧
    (detectOnsets (normalizeSpectrum [160] 0) 5000
        (runDetect c5run initState)).onsetStrength = 95/1524 ∧
    (0 : ℚ) < 95/1524 ∧ (95/1524 : ℚ) ≤ 1/10 ∧
    (detectBPM [160] 0 5000 (runDetect c5run initState)).state.onsetHistory =
      [1500, 2500, 3500, 5000] ∧
    (5000 : ℚ) - 3500 = 1500 ∧ (300 : ℚ) ≤ 1500 ∧ (1500 : ℚ) ≤ 2000 ∧
    (detectBPM [160] 0 5000 (runDetect c5run initState)).state.ioiHistogram =
      (runDetect c5run initState).ioiHistogram := by
  have hrun : runDetect c5run initState =
      ⟨[1500, 2500, 3500], 3500, [], 3500,
       [0, 0, 1, 0, 1, 0, 128/255, 127/255, 0], some [0],
       [(1000, 741/400), (2000, 19/20)]⟩ := by
    simp only [runDetect, c5run, initState, List.foldl_cons, List.foldl_nil,
      tickC5_t1, tickC5_t2, tickC5_t3, tickC5_t4, tickC5_t5, tickC5_t6,
      tickC5_t7, tickC5_t8, tickC5_t9, tickC5_t10]
  have hn : normalizeSpectrum [160] 0 = [(32/51)] := by
    norm_num [normalizeSpectrum, List.enum, List.enumFrom]
  have ho : detectOnsets [(32/51)] 5000
      ⟨[1500, 2500, 3500], 3500, [], 3500,
       [0, 0, 1, 0, 1, 0, 128/255, 127/255, 0], some [0],
       [(1000, 741/400), (2000, 19/20)]⟩ =
      ⟨(95/1524), ⟨[1500, 2500, 3500, 5000], 5000, [], 3500,
       [0, 0, 1, 0, 1, 0, 128/255, 127/255, 0, 32/51], some [32/51],
       [(1000, 741/400), (2000, 19/20)]⟩⟩ := by
    norm_num [detectOnsets, spectralFlux, fluxWeight, fluxMedian,
      adaptiveThreshold, minOnsetSpacing, onsetStrengthOf, stableSort,
      stableInsert, List.enum, List.enumFrom, List.getLast?]
  rw [hrun, tickC5_t11, hn, ho]
  norm_num

end Aquarius
